import Mathlib

/-!
# Verification of the asistrader trade lifecycle and exit-level engine

Shallow embedding of the trade lifecycle and exit-level detection engine of
the `asistrader` trading journal, translated from
`backend/src/asistrader/services/{trade_service,exit_level_service,sltp_detection_service}.py`
and `backend/src/asistrader/models/db.py`.

Modelling conventions:
* Python `float` prices and percentages become `ℚ`; Python `int` unit counts
  become `ℤ` (Python ints are unbounded and `remaining_units` can go negative).
* Dates become `ℕ` (ordinal days: only ordering and maxima matter).
* Python `None`-able fields become `Option`; Python truthiness (`or`,
  `if not x`) is embedded explicitly (`0.0` and `None` are falsy).
* Python `int(x)` is truncation toward zero, Python `round(x)` is
  round-half-to-even; both are embedded exactly.
* Database sessions disappear: every service function becomes a pure function
  on a `Trade` aggregate (the trade together with its exit levels), returning
  `Except` where the Python code can raise.
-/

namespace Asistrader

/-- Python `int(q)`: truncation toward zero. -/
def pyTrunc (q : ℚ) : ℤ :=
  if q < 0 then -(Int.floor (-q)) else Int.floor q

/-- Python `round(q)`: round half to even (banker's rounding). -/
def pyRound (q : ℚ) : ℤ :=
  let f := Int.floor q
  let r := q - (f : ℚ)
  if r < 1/2 then f
  else if 1/2 < r then f + 1
  else if f % 2 = 0 then f else f + 1

/-- Python `o or d` for an optional integer (`None` and `0` are falsy),
as in `trade.remaining_units or trade.units`. -/
def pyOrInt (o : Option ℤ) (d : ℤ) : ℤ :=
  match o with
  | none => d
  | some v => if v = 0 then d else v

/-- Python `a or b` on optional rationals (`None` and `0.0` are falsy),
as in `updates.get("exit_price") or trade.exit_price`. -/
def pyOrQ (a b : Option ℚ) : Option ℚ :=
  match a with
  | none => b
  | some v => if v = 0 then b else some v

/-- Python truthiness of an optional rational. -/
def truthyQ (a : Option ℚ) : Bool :=
  match a with
  | none => false
  | some v => v != 0

/-- Python `a or b` on optionals whose values are always truthy
(enum members, `date` objects). -/
def pyOrT {α : Type} (a b : Option α) : Option α :=
  match a with
  | none => b
  | some v => some v

/-- `models/db.py` `TradeStatus`. -/
inductive TradeStatus where
  | PLAN
  | OPEN
  | CLOSE
deriving DecidableEq, Repr

/-- `models/db.py` `ExitType`. -/
inductive ExitType where
  | SL
  | TP
deriving DecidableEq, Repr

/-- `models/db.py` `ExitLevelType`. -/
inductive ExitLevelType where
  | SL
  | TP
deriving DecidableEq, Repr

/-- `models/db.py` `ExitLevelStatus`. -/
inductive ExitLevelStatus where
  | PENDING
  | HIT
  | CANCELLED
deriving DecidableEq, Repr

/-- `models/db.py` `ExitLevel` (the columns the engine reads or writes). -/
structure ExitLevel where
  id : ℕ
  level_type : ExitLevelType
  price : ℚ
  units_pct : ℚ
  order_index : ℤ
  status : ExitLevelStatus
  hit_date : Option ℕ
  units_closed : Option ℤ
  move_sl_to_breakeven : Bool
deriving DecidableEq, Repr

/-- `models/db.py` `Trade` (the columns the engine reads or writes), with its
owned `exit_levels` collection inlined as the aggregate the services operate
on. -/
structure Trade where
  status : TradeStatus
  amount : ℚ
  units : ℤ
  entry_price : ℚ
  date_planned : Option ℕ
  date_actual : Option ℕ
  exit_date : Option ℕ
  exit_type : Option ExitType
  exit_price : Option ℚ
  paper_trade : Bool
  is_layered : Bool
  remaining_units : Option ℤ
  exit_levels : List ExitLevel
deriving DecidableEq, Repr

/-- `models/db.py` `MarketData` (one daily OHLC bar; only the fields the
detection engine reads). -/
structure MarketData where
  date : ℕ
  high : Option ℚ
  low : Option ℚ
deriving DecidableEq, Repr

/-- `models/db.py` `Trade.stop_loss` computed property: the price of the
first SL exit level, or `0.0` when there is none. -/
def Trade.stop_loss (t : Trade) : ℚ :=
  match t.exit_levels.filter (fun l => l.level_type == ExitLevelType.SL) with
  | [] => 0
  | l :: _ => l.price

/-- `models/db.py` `Trade.take_profit` computed property: the
`units_pct`-weighted average of the TP levels' prices, or `0.0` when there is
no TP level or the percentages sum to zero. -/
def Trade.take_profit (t : Trade) : ℚ :=
  let tps := t.exit_levels.filter (fun l => l.level_type == ExitLevelType.TP)
  match tps with
  | [] => 0
  | _ :: _ =>
    let total_pct := (tps.map (fun l => l.units_pct)).sum
    if total_pct = 0 then 0
    else (tps.map (fun l => l.price * l.units_pct)).sum / total_pct

/-- Stable insertion used by `stableSortBy` (an element is placed after every
element `b` with `le b a`, so equal keys keep their original order, like
Python's `sorted`). -/
def stableInsert {α : Type} (le : α → α → Bool) (a : α) : List α → List α
  | [] => [a]
  | b :: bs => if le b a then b :: stableInsert le a bs else a :: b :: bs

/-- Stable sort (insertion sort), modelling Python's `sorted`. -/
def stableSortBy {α : Type} (le : α → α → Bool) (xs : List α) : List α :=
  xs.foldl (fun acc x => stableInsert le x acc) []

/-- The engine's errors.  Python raises `ExitLevelValidationError`,
`TradeUpdateError` or `ValueError` with a message; each raise site becomes
one constructor carrying the data the message interpolates. -/
inductive EngineError where
  /-- `create_exit_levels`: "… levels must sum to 100%, got {sum * 100:.1f}%".
  Carries the level type and the actual sum the message reports. -/
  | sumNotOne (ltype : ExitLevelType) (sum : ℚ)
  /-- `mark_level_hit`: "Exit level with id {level_id} not found". -/
  | levelNotFound (levelId : ℕ)
  /-- `mark_level_hit`: "Exit level {level_id} is already hit". -/
  | alreadyHit (levelId : ℕ)
  /-- `mark_level_hit`: "Exit level {level_id} is cancelled". -/
  | levelCancelled (levelId : ℕ)
  /-- `revert_level_hit`: "Cannot revert level …: status is '…', expected 'hit'". -/
  | revertNotHit (levelId : ℕ) (actual : ExitLevelStatus)
  /-- `revert_level_hit`: "Cannot revert level on trade …: trade status is '…', expected 'open'". -/
  | revertTradeNotOpen (actual : TradeStatus)
  /-- Python `max()` over an empty sequence raises `ValueError`
  (reachable only from states where a Hit level has no `hit_date`). -/
  | valueErrorMaxEmpty
  /-- `create_trade`: "Must provide either exit_levels or both stop_loss and take_profit". -/
  | missingStopTake
  /-- `update_trade`: "exit_price is required when closing a trade". -/
  | exitPriceRequired
  /-- `update_trade`: "exit_type is required when closing a trade". -/
  | exitTypeRequired
  /-- `update_trade`: "Cannot close a trade that is not open. Open it first.". -/
  | cannotCloseFromPlan
  /-- `update_trade`: "Cannot change status of a closed trade". -/
  | cannotChangeClosed
deriving DecidableEq, Repr

/-- One element of `create_exit_levels`'s `levels_data` argument (a dict with
`level_type`, `price`, `units_pct`, optional `move_sl_to_breakeven`). -/
structure LevelSpec where
  level_type : ExitLevelType
  price : ℚ
  units_pct : ℚ
  move_sl_to_breakeven : Bool
deriving DecidableEq, Repr

/-- The level-construction loop of `create_exit_levels`: walks the specs in
input order, incrementing a per-type counter (`tp_index` / `sl_index`) and
assigning it as `order_index`; every level is created `PENDING` with no
`hit_date`/`units_closed`.  `nid` models the database's fresh primary keys. -/
def levelsFromSpecs : List LevelSpec → ℕ → ℤ → ℤ → List ExitLevel
  | [], _, _, _ => []
  | s :: rest, nid, tpIdx, slIdx =>
    match s.level_type with
    | ExitLevelType.TP =>
      { id := nid, level_type := ExitLevelType.TP, price := s.price,
        units_pct := s.units_pct, order_index := tpIdx + 1,
        status := ExitLevelStatus.PENDING, hit_date := none,
        units_closed := none, move_sl_to_breakeven := s.move_sl_to_breakeven }
        :: levelsFromSpecs rest (nid + 1) (tpIdx + 1) slIdx
    | ExitLevelType.SL =>
      { id := nid, level_type := ExitLevelType.SL, price := s.price,
        units_pct := s.units_pct, order_index := slIdx + 1,
        status := ExitLevelStatus.PENDING, hit_date := none,
        units_closed := none, move_sl_to_breakeven := s.move_sl_to_breakeven }
        :: levelsFromSpecs rest (nid + 1) tpIdx (slIdx + 1)

/-- Sum of the `units_pct` of the specs of one type. -/
def pctSum (ltype : ExitLevelType) (specs : List LevelSpec) : ℚ :=
  ((specs.filter (fun s => s.level_type == ltype)).map (fun s => s.units_pct)).sum

/-- `exit_level_service.create_exit_levels`: validates that each present
type's percentages sum to 1.0 within `0.001` (TP checked first), then creates
the levels in Pending status with sequential per-type `order_index`. -/
def create_exit_levels (nextId : ℕ) (specs : List LevelSpec) : Except EngineError (List ExitLevel) :=
  let tp_specs := specs.filter (fun s => s.level_type == ExitLevelType.TP)
  let sl_specs := specs.filter (fun s => s.level_type == ExitLevelType.SL)
  if tp_specs ≠ [] ∧ |pctSum ExitLevelType.TP specs - 1| > 1/1000 then
    .error (.sumNotOne ExitLevelType.TP (pctSum ExitLevelType.TP specs))
  else if sl_specs ≠ [] ∧ |pctSum ExitLevelType.SL specs - 1| > 1/1000 then
    .error (.sumNotOne ExitLevelType.SL (pctSum ExitLevelType.SL specs))
  else
    .ok (levelsFromSpecs specs nextId 0 0)

/-- Update the first level with the given id (the database row `filter(id ==
level_id).first()` resolves to). -/
def updateFirstById (levelId : ℕ) (f : ExitLevel → ExitLevel) : List ExitLevel → List ExitLevel
  | [] => []
  | l :: rest =>
    if l.id = levelId then f l :: rest
    else l :: updateFirstById levelId f rest

/-- `exit_level_service.mark_level_hit` on a trade's level collection:
fails if the level does not exist, is already Hit, or is Cancelled;
otherwise records status Hit, the hit date and the closed units. -/
def mark_level_hit (levels : List ExitLevel) (levelId : ℕ) (hitDate : ℕ)
    (unitsClosed : ℤ) : Except EngineError (List ExitLevel) :=
  match levels.find? (fun l => l.id == levelId) with
  | none => .error (.levelNotFound levelId)
  | some l =>
    if l.status = ExitLevelStatus.HIT then .error (.alreadyHit levelId)
    else if l.status = ExitLevelStatus.CANCELLED then .error (.levelCancelled levelId)
    else .ok (updateFirstById levelId
      (fun l0 => { l0 with status := ExitLevelStatus.HIT,
                           hit_date := some hitDate,
                           units_closed := some unitsClosed }) levels)

/-- `exit_level_service.cancel_remaining_levels`: every Pending level of the
trade becomes Cancelled. -/
def cancel_remaining_levels (levels : List ExitLevel) : List ExitLevel :=
  levels.map (fun l =>
    if l.status = ExitLevelStatus.PENDING then { l with status := ExitLevelStatus.CANCELLED }
    else l)

/-- `exit_level_service.replace_exit_levels`: deletes the Pending levels
(non-Pending levels are preserved), then — unless the new spec list is null
or empty, in which case it returns `([], False)` — creates the new levels via
`create_exit_levels` and returns `(created, True)`.  The result triple is
(created levels, the returned "is layered" boolean, the trade's resulting
level collection). -/
def replace_exit_levels (levels : List ExitLevel) (nextId : ℕ)
    (specs : Option (List LevelSpec)) :
    Except EngineError (List ExitLevel × Bool × List ExitLevel) :=
  let kept := levels.filter (fun l => !(l.status == ExitLevelStatus.PENDING))
  match specs with
  | none => .ok ([], false, kept)
  | some [] => .ok ([], false, kept)
  | some sp =>
    match create_exit_levels nextId sp with
    | .error e => .error e
    | .ok created => .ok (created, true, kept ++ created)

/-- Breakeven move: every still-Pending SL level's price becomes the trade's
entry price (the loop bodies of `process_layered_hits` and
`apply_manual_level_hit`). -/
def breakevenSLs (entryPrice : ℚ) (levels : List ExitLevel) : List ExitLevel :=
  levels.map (fun l =>
    if l.level_type = ExitLevelType.SL ∧ l.status = ExitLevelStatus.PENDING then
      { l with price := entryPrice }
    else l)

/-- The trade's Hit levels. -/
def hitLevels (t : Trade) : List ExitLevel :=
  t.exit_levels.filter (fun l => l.status == ExitLevelStatus.HIT)

/-- Σ `units_closed or 0` over a level list. -/
def sumClosed (ls : List ExitLevel) : ℤ :=
  (ls.map (fun l => l.units_closed.getD 0)).sum

/-- Σ `price * (units_closed or 0)` over a level list. -/
def sumWeighted (ls : List ExitLevel) : ℚ :=
  (ls.map (fun l => l.price * ((l.units_closed.getD 0 : ℤ) : ℚ))).sum

/-- The full-close settlement block, written identically in
`process_layered_hits` (lines 419-435) and `apply_manual_level_hit`
(lines 281-295): sets status Close; if there are Hit levels, sets
`exit_price` to the `units_closed`-weighted average of their prices (only
when the total closed is positive), `exit_date` to the maximum `hit_date`
among them (Python `max` raises `ValueError` if every Hit level lacks a
date), and `exit_type` to TP iff TP units ≥ SL units. -/
def settleClose (t : Trade) : Except EngineError Trade :=
  let t₁ : Trade := { t with status := TradeStatus.CLOSE }
  match hitLevels t₁ with
  | [] => .ok t₁
  | hl =>
    let total := sumClosed hl
    let t₂ : Trade :=
      if 0 < total then { t₁ with exit_price := some (sumWeighted hl / (total : ℚ)) } else t₁
    match (hl.filterMap (fun l => l.hit_date)).max? with
    | none => .error .valueErrorMaxEmpty
    | some dmax =>
      let tp_units := sumClosed (hl.filter (fun l => l.level_type == ExitLevelType.TP))
      let sl_units := sumClosed (hl.filter (fun l => l.level_type == ExitLevelType.SL))
      .ok { t₂ with exit_date := some dmax,
                    exit_type := some (if sl_units ≤ tp_units then ExitType.TP else ExitType.SL) }

/-- `exit_level_service.apply_manual_level_hit`: computes
`units_closed = round(trade.units * level.units_pct)` (no minimum, no cap),
marks the level Hit, optionally overrides its price, decrements
`remaining_units` (seeding it from `units` when it is null), applies the
breakeven move for a TP level with the flag set, and — when
`remaining_units` reached ≤ 0 — settles the close and cancels the remaining
Pending levels. -/
def apply_manual_level_hit (t : Trade) (levelId : ℕ) (hitDate : ℕ)
    (hitPrice : Option ℚ) : Except EngineError Trade :=
  match t.exit_levels.find? (fun l => l.id == levelId) with
  | none => .error (.levelNotFound levelId)
  | some level =>
    let units_closed := pyRound ((t.units : ℚ) * level.units_pct)
    match mark_level_hit t.exit_levels levelId hitDate units_closed with
    | .error e => .error e
    | .ok levels₁ =>
      let levels₂ :=
        match hitPrice with
        | some p => updateFirstById levelId (fun l0 => { l0 with price := p }) levels₁
        | none => levels₁
      let base := match t.remaining_units with | none => t.units | some r => r
      let rem := base - units_closed
      let levels₃ :=
        if level.move_sl_to_breakeven ∧ level.level_type = ExitLevelType.TP then
          breakevenSLs t.entry_price levels₂
        else levels₂
      let t₁ : Trade := { t with exit_levels := levels₃, remaining_units := some rem }
      if rem ≤ 0 then
        match settleClose t₁ with
        | .error e => .error e
        | .ok t₂ => .ok { t₂ with exit_levels := cancel_remaining_levels t₂.exit_levels }
      else .ok t₁

/-- `exit_level_service.revert_level_hit`: only legal when the level is Hit
(checked first) and the trade is Open; restores `remaining_units` by the
level's `units_closed or 0` (a null `remaining_units` is seeded with the
restored amount alone, i.e. treated as zero) and resets the level to Pending
with `hit_date`/`units_closed` cleared. -/
def revert_level_hit (t : Trade) (levelId : ℕ) : Except EngineError Trade :=
  match t.exit_levels.find? (fun l => l.id == levelId) with
  | none => .error (.levelNotFound levelId)
  | some level =>
    if level.status ≠ ExitLevelStatus.HIT then .error (.revertNotHit levelId level.status)
    else if t.status ≠ TradeStatus.OPEN then .error (.revertTradeNotOpen t.status)
    else
      let units_to_restore := level.units_closed.getD 0
      let rem := match t.remaining_units with
        | none => units_to_restore
        | some r => r + units_to_restore
      .ok { t with
        remaining_units := some rem,
        exit_levels := updateFirstById levelId
          (fun l0 =>
            { l0 with status := ExitLevelStatus.PENDING, hit_date := none, units_closed := none })
          t.exit_levels }

/-- `trade_service.create_trade`: requires either a non-empty `exit_levels`
list or both `stop_loss` and `take_profit` (from which a 100% SL level and a
100% TP level are built, in that order); sets `is_layered` iff more than two
levels, `status = PLAN`, `remaining_units = units`, `amount = entry_price *
units`; the levels are created through `create_exit_levels` (whose validation
error propagates). -/
def create_trade (entry_price : ℚ) (units : ℤ) (date_planned : ℕ)
    (stop_loss take_profit : Option ℚ) (paper_trade : Bool)
    (exit_levels : Option (List LevelSpec)) (nextId : ℕ) : Except EngineError Trade :=
  let given : Option (List LevelSpec) :=
    match exit_levels with
    | none => none
    | some [] => none
    | some sp => some sp
  let specs? : Except EngineError (List LevelSpec × Bool) :=
    match given with
    | some sp => .ok (sp, decide (2 < sp.length))
    | none =>
      match stop_loss, take_profit with
      | some sl, some tp =>
        .ok ([{ level_type := ExitLevelType.SL, price := sl, units_pct := 1,
                move_sl_to_breakeven := false },
              { level_type := ExitLevelType.TP, price := tp, units_pct := 1,
                move_sl_to_breakeven := false }], false)
      | _, _ => .error .missingStopTake
  match specs? with
  | .error e => .error e
  | .ok (specs, layered) =>
    match create_exit_levels nextId specs with
    | .error e => .error e
    | .ok created =>
      .ok { status := TradeStatus.PLAN,
            amount := entry_price * (units : ℚ),
            units := units,
            entry_price := entry_price,
            date_planned := some date_planned,
            date_actual := none,
            exit_date := none,
            exit_type := none,
            exit_price := none,
            paper_trade := paper_trade,
            is_layered := layered,
            remaining_units := some units,
            exit_levels := created }

/-- The fields `update_trade`'s `**updates` dict may carry for the engine
(the HTTP layer drops `None` values, so `none` here means the key is absent;
`stop_loss`/`take_profit` are popped and ignored by the code and are not
modelled). -/
structure TradeUpdates where
  status : Option TradeStatus
  date_actual : Option ℕ
  exit_date : Option ℕ
  exit_type : Option ExitType
  exit_price : Option ℚ
  entry_price : Option ℚ
  units : Option ℤ
  exit_levels : Option (List LevelSpec)
deriving DecidableEq, Repr

/-- The empty update set. -/
def TradeUpdates.none : TradeUpdates :=
  { status := Option.none, date_actual := Option.none, exit_date := Option.none,
    exit_type := Option.none, exit_price := Option.none, entry_price := Option.none,
    units := Option.none, exit_levels := Option.none }

/-- The setattr loop of `update_trade`: every non-None update value is
written onto the trade. -/
def applyFieldUpdates (t : Trade) (u : TradeUpdates) : Trade :=
  { t with
    status := u.status.getD t.status,
    date_actual := match u.date_actual with | some d => some d | none => t.date_actual,
    exit_date := match u.exit_date with | some d => some d | none => t.exit_date,
    exit_type := match u.exit_type with | some e => some e | none => t.exit_type,
    exit_price := match u.exit_price with | some p => some p | none => t.exit_price,
    entry_price := u.entry_price.getD t.entry_price,
    units := u.units.getD t.units }

/-- `trade_service.update_trade` (on an already-looked-up trade).  Status
transition validation: Plan→Open defaults `date_actual` to today; Open→Close
requires a truthy `exit_price` and `exit_type` (request value `or` the
trade's, Python truthiness) and defaults `exit_date` to today; Plan→Close
and any change from Close raise; every other combination falls through
unvalidated.  Then a present `exit_levels` list replaces the levels (setting
`is_layered` to the returned flag and, when layered, resetting
`remaining_units` to `units`), the remaining updates are applied, and
`amount` is recomputed when `entry_price` or `units` was updated. -/
def update_trade (t : Trade) (today : ℕ) (nextId : ℕ) (u : TradeUpdates) :
    Except EngineError Trade :=
  let validated : Except EngineError TradeUpdates :=
    match u.status with
    | Option.none => .ok u
    | some ns =>
      if t.status = TradeStatus.PLAN ∧ ns = TradeStatus.OPEN then
        .ok { u with date_actual := some (u.date_actual.getD today) }
      else if t.status = TradeStatus.OPEN ∧ ns = TradeStatus.CLOSE then
        let ep := pyOrQ u.exit_price t.exit_price
        let et := pyOrT u.exit_type t.exit_type
        let ed := pyOrT u.exit_date t.exit_date
        if ¬ truthyQ ep then .error .exitPriceRequired
        else if et = Option.none then .error .exitTypeRequired
        else if ed = Option.none then .ok { u with exit_date := some today }
        else .ok u
      else if t.status = TradeStatus.PLAN ∧ ns = TradeStatus.CLOSE then
        .error .cannotCloseFromPlan
      else if t.status = TradeStatus.CLOSE then
        .error .cannotChangeClosed
      else .ok u
  match validated with
  | .error e => .error e
  | .ok u₁ =>
    let afterLevels : Except EngineError Trade :=
      match u₁.exit_levels with
      | Option.none => .ok t
      | some sp =>
        match replace_exit_levels t.exit_levels nextId (some sp) with
        | .error e => .error e
        | .ok (_, layered, newLevels) =>
          .ok { t with exit_levels := newLevels, is_layered := layered,
                       remaining_units := if layered then some t.units else t.remaining_units }
    match afterLevels with
    | .error e => .error e
    | .ok t₁ =>
      let t₂ := applyFieldUpdates t₁ u₁
      if u₁.entry_price.isSome ∨ u₁.units.isSome then
        .ok { t₂ with amount := t₂.entry_price * (t₂.units : ℚ) }
      else .ok t₂

/-- The status-validation half of `update_trade` (lines 109-151), factored
out verbatim so the proofs can decompose the function. -/
def validateStatusChange (t : Trade) (today : ℕ) (u : TradeUpdates) :
    Except EngineError TradeUpdates :=
  match u.status with
  | Option.none => .ok u
  | some ns =>
    if t.status = TradeStatus.PLAN ∧ ns = TradeStatus.OPEN then
      .ok { u with date_actual := some (u.date_actual.getD today) }
    else if t.status = TradeStatus.OPEN ∧ ns = TradeStatus.CLOSE then
      let ep := pyOrQ u.exit_price t.exit_price
      let et := pyOrT u.exit_type t.exit_type
      let ed := pyOrT u.exit_date t.exit_date
      if ¬ truthyQ ep then .error .exitPriceRequired
      else if et = Option.none then .error .exitTypeRequired
      else if ed = Option.none then .ok { u with exit_date := some today }
      else .ok u
    else if t.status = TradeStatus.PLAN ∧ ns = TradeStatus.CLOSE then
      .error .cannotCloseFromPlan
    else if t.status = TradeStatus.CLOSE then
      .error .cannotChangeClosed
    else .ok u

/-- The second half of `update_trade` (levels replacement, field updates,
amount recomputation), factored out verbatim so the proofs can decompose the
function. -/
def applyNonStatusUpdates (t : Trade) (nextId : ℕ) (u₁ : TradeUpdates) :
    Except EngineError Trade :=
  let afterLevels : Except EngineError Trade :=
    match u₁.exit_levels with
    | Option.none => .ok t
    | some sp =>
      match replace_exit_levels t.exit_levels nextId (some sp) with
      | .error e => .error e
      | .ok (_, layered, newLevels) =>
        .ok { t with exit_levels := newLevels, is_layered := layered,
                     remaining_units := if layered then some t.units else t.remaining_units }
  match afterLevels with
  | .error e => .error e
  | .ok t₁ =>
    let t₂ := applyFieldUpdates t₁ u₁
    if u₁.entry_price.isSome ∨ u₁.units.isSome then
      .ok { t₂ with amount := t₂.entry_price * (t₂.units : ℚ) }
    else .ok t₂

/-- `sltp_detection_service.SLTPHitType` (`models/schemas.py`). -/
inductive SLTPHitType where
  | SL
  | TP
  | BOTH
deriving DecidableEq, Repr

/-- `sltp_detection_service.SLTPHit`. -/
structure SLTPHit where
  hit_type : SLTPHitType
  hit_date : ℕ
  hit_price : ℚ
deriving DecidableEq, Repr

/-- `sltp_detection_service.EntryHit`. -/
structure EntryHit where
  hit_date : ℕ
  entry_price : ℚ
deriving DecidableEq, Repr

/-- `sltp_detection_service.LayeredLevelHit`.  `level` is the level object as
detection saw it (its immutable columns — id, type, pct, flag — are what the
processing loop reads). -/
structure LayeredLevelHit where
  level : ExitLevel
  hit_date : ℕ
  units_to_close : ℤ
deriving DecidableEq, Repr

/-- `sltp_detection_service.is_long_trade`: long iff SL < entry price. -/
def is_long_trade (t : Trade) : Bool :=
  decide (t.stop_loss < t.entry_price)

/-- `sltp_detection_service.check_sltp_hit_for_day`: evaluates the SL and TP
conditions on one bar using the directional rule (a bar missing high or low
is skipped); `BOTH` when the two hit the same bar. -/
def check_sltp_hit_for_day (t : Trade) (md : MarketData) : Option SLTPHitType :=
  match md.low, md.high with
  | some lo, some hi =>
    let sl_hit := if is_long_trade t then decide (lo ≤ t.stop_loss)
                  else decide (hi ≥ t.stop_loss)
    let tp_hit := if is_long_trade t then decide (hi ≥ t.take_profit)
                  else decide (lo ≤ t.take_profit)
    if sl_hit ∧ tp_hit then some SLTPHitType.BOTH
    else if sl_hit then some SLTPHitType.SL
    else if tp_hit then some SLTPHitType.TP
    else none
  | _, _ => none

/-- Bar ordering for the `ORDER BY date` of the market-data queries
(`(ticker, date)` is unique, so the order is total on a ticker's bars). -/
def mdLE (a b : MarketData) : Bool :=
  decide (a.date ≤ b.date)

/-- The scan loop of `detect_sltp_hit`: first bar with any hit wins; the hit
price is `stop_loss` for SL, `take_profit` for TP, and `stop_loss` again for
BOTH (reporting only). -/
def firstSLTPHit (t : Trade) : List MarketData → Option SLTPHit
  | [] => none
  | d :: rest =>
    match check_sltp_hit_for_day t d with
    | some ht =>
      some { hit_type := ht, hit_date := d.date,
             hit_price := if ht = SLTPHitType.TP then t.take_profit else t.stop_loss }
    | none => firstSLTPHit t rest

/-- `sltp_detection_service.detect_sltp_hit`: for an Open trade with a known
`date_actual`, scans that ticker's bars from `date_actual` onward in
ascending date order for the first SL/TP hit. -/
def detect_sltp_hit (t : Trade) (bars : List MarketData) : Option SLTPHit :=
  if t.status = TradeStatus.OPEN then
    match t.date_actual with
    | some d0 => firstSLTPHit t (stableSortBy mdLE (bars.filter (fun b => decide (d0 ≤ b.date))))
    | none => none
  else none

/-- `sltp_detection_service.auto_close_paper_trade`: a BOTH hit (conflict)
leaves the trade untouched; otherwise exit type/price/date are recorded and
the trade transitions to Close. -/
def auto_close_paper_trade (t : Trade) (hit : SLTPHit) : Trade :=
  if hit.hit_type = SLTPHitType.BOTH then t
  else
    { t with
      exit_type := some (if hit.hit_type = SLTPHitType.SL then ExitType.SL else ExitType.TP),
      exit_price := some hit.hit_price,
      exit_date := some hit.hit_date,
      status := TradeStatus.CLOSE }

/-- `sltp_detection_service.check_entry_hit_for_day`. -/
def check_entry_hit_for_day (t : Trade) (md : MarketData) : Bool :=
  match md.low, md.high with
  | some lo, some hi =>
    if is_long_trade t then decide (lo ≤ t.entry_price) else decide (hi ≥ t.entry_price)
  | _, _ => false

/-- The scan loop of `detect_entry_hit`. -/
def firstEntryHit (t : Trade) : List MarketData → Option EntryHit
  | [] => none
  | d :: rest =>
    if check_entry_hit_for_day t d then some { hit_date := d.date, entry_price := t.entry_price }
    else firstEntryHit t rest

/-- `sltp_detection_service.detect_entry_hit`: for a Plan trade with a known
`date_planned`, scans bars from `date_planned` onward for the first entry
hit. -/
def detect_entry_hit (t : Trade) (bars : List MarketData) : Option EntryHit :=
  if t.status = TradeStatus.PLAN then
    match t.date_planned with
    | some d0 => firstEntryHit t (stableSortBy mdLE (bars.filter (fun b => decide (d0 ≤ b.date))))
    | none => none
  else none

/-- `sltp_detection_service.auto_open_paper_trade`. -/
def auto_open_paper_trade (t : Trade) (hit : EntryHit) : Trade :=
  { t with status := TradeStatus.OPEN, date_actual := some hit.hit_date }

/-- `sltp_detection_service.check_layered_level_hit`: the directional
high/low rule applied to one level's own type and price. -/
def check_layered_level_hit (t : Trade) (l : ExitLevel) (md : MarketData) : Bool :=
  match md.low, md.high with
  | some lo, some hi =>
    match l.level_type with
    | ExitLevelType.SL =>
      if is_long_trade t then decide (lo ≤ l.price) else decide (hi ≥ l.price)
    | ExitLevelType.TP =>
      if is_long_trade t then decide (hi ≥ l.price) else decide (lo ≤ l.price)
  | _, _ => false

/-- The `units_to_close` computation of `detect_layered_hits`
(lines 352-358): `int(trade.units * level.units_pct)` — truncation —
raised to at least 1, then capped at the running remaining units. -/
def unitsToCloseDetect (units remaining : ℤ) (pct : ℚ) : ℤ :=
  let u0 := pyTrunc ((units : ℚ) * pct)
  let u1 := if u0 < 1 then 1 else u0
  if u1 > remaining then remaining else u1

/-- Sort key of the per-bar level loop: Python sorts by
`(level_type.value, order_index)` and `"sl" < "tp"`, so SL levels rank
before TP levels. -/
def levelSortLE (a b : ExitLevel) : Bool :=
  let rank : ExitLevelType → ℕ := fun ty => match ty with
    | ExitLevelType.SL => 0
    | ExitLevelType.TP => 1
  decide (rank a.level_type < rank b.level_type) ||
    (rank a.level_type == rank b.level_type && decide (a.order_index ≤ b.order_index))

/-- The inner per-bar loop of `detect_layered_hits`: walks the sorted
pending levels, skipping those already consumed in this scan (`hitIds`
models the temporary in-scan status mutation the source resets afterwards),
recording a hit with its computed units and decrementing the running
remaining counter.  Returns (hits of this bar, consumed ids, remaining). -/
def scanLevelsForDay (t : Trade) (day : MarketData) :
    List ExitLevel → List ℕ → ℤ → List LayeredLevelHit × List ℕ × ℤ
  | [], hitIds, remaining => ([], hitIds, remaining)
  | l :: rest, hitIds, remaining =>
    if hitIds.contains l.id then scanLevelsForDay t day rest hitIds remaining
    else if check_layered_level_hit t l day then
      let u := unitsToCloseDetect t.units remaining l.units_pct
      let res := scanLevelsForDay t day rest (l.id :: hitIds) (remaining - u)
      ({ level := l, hit_date := day.date, units_to_close := u } :: res.1, res.2.1, res.2.2)
    else scanLevelsForDay t day rest hitIds remaining

/-- The outer bar loop of `detect_layered_hits`: bars in ascending date
order; after each bar, the scan stops once the running remaining units
reach ≤ 0. -/
def scanDays (t : Trade) (sortedPending : List ExitLevel) :
    List MarketData → List ℕ → ℤ → List LayeredLevelHit
  | [], _, _ => []
  | d :: rest, hitIds, remaining =>
    let res := scanLevelsForDay t d sortedPending hitIds remaining
    if res.2.2 ≤ 0 then res.1
    else res.1 ++ scanDays t sortedPending rest res.2.1 res.2.2

/-- `sltp_detection_service.detect_layered_hits`: for an Open trade with a
known `date_actual` and at least one Pending level, scans the bars from
`date_actual` onward, evaluating all pending levels per bar in
`(level_type, order_index)` order with a running remaining-units counter
seeded with `trade.remaining_units or trade.units`. -/
def detect_layered_hits (t : Trade) (bars : List MarketData) : List LayeredLevelHit :=
  if t.status = TradeStatus.OPEN then
    match t.date_actual with
    | some d0 =>
      match t.exit_levels.filter (fun l => l.status == ExitLevelStatus.PENDING) with
      | [] => []
      | pending =>
        let days := stableSortBy mdLE (bars.filter (fun b => decide (d0 ≤ b.date)))
        scanDays t (stableSortBy levelSortLE pending) days [] (pyOrInt t.remaining_units t.units)
    | none => []
  else []

/-- One iteration of the hit-application loop of `process_layered_hits`:
marks the level Hit with the detected date and units, decrements
`remaining_units` (seeding it from `units` when null), and applies the
breakeven move when the hit level is a TP with the flag set. -/
def applyLayeredHit (t : Trade) (h : LayeredLevelHit) : Except EngineError Trade :=
  match mark_level_hit t.exit_levels h.level.id h.hit_date h.units_to_close with
  | .error e => .error e
  | .ok levels₁ =>
    let base := match t.remaining_units with | none => t.units | some r => r
    let rem := base - h.units_to_close
    let levels₂ :=
      if h.level.move_sl_to_breakeven ∧ h.level.level_type = ExitLevelType.TP then
        breakevenSLs t.entry_price levels₁
      else levels₁
    .ok { t with exit_levels := levels₂, remaining_units := some rem }

/-- The hit-application loop of `process_layered_hits` over the whole hit
list (a raised `ExitLevelValidationError` aborts the loop as in Python). -/
def applyLayeredHits : Trade → List LayeredLevelHit → Except EngineError Trade
  | t, [] => .ok t
  | t, h :: rest =>
    match applyLayeredHit t h with
    | .error e => .error e
    | .ok t₁ => applyLayeredHits t₁ rest

/-- `sltp_detection_service.process_layered_hits`: detects the hits, applies
each one, and — when `remaining_units` is defined and ≤ 0 afterwards —
settles the full close (weighted exit price, last hit date, majority exit
type, status Close).  Pending levels are NOT cancelled on this path.
Returns the updated trade together with the processed hits. -/
def process_layered_hits (t : Trade) (bars : List MarketData) :
    Except EngineError (Trade × List LayeredLevelHit) :=
  match detect_layered_hits t bars with
  | [] => .ok (t, [])
  | hits =>
    match applyLayeredHits t hits with
    | .error e => .error e
    | .ok t₁ =>
      match t₁.remaining_units with
      | some r =>
        if r ≤ 0 then
          match settleClose t₁ with
          | .error e => .error e
          | .ok t₂ => .ok (t₂, hits)
        else .ok (t₁, hits)
      | none => .ok (t₁, hits)

/-- `models/schemas.py` `SLTPAlert` (identification and message fields are
not modelled; the flags and hit data are). -/
structure SLTPAlert where
  hit_type : SLTPHitType
  hit_date : ℕ
  hit_price : ℚ
  paper_trade : Bool
  auto_closed : Bool
deriving DecidableEq, Repr

/-- The layered alert record `process_open_trades` builds per hit
(identification and message fields are not modelled). -/
structure LayeredAlert where
  level_type : ExitLevelType
  level_index : ℤ
  hit_date : ℕ
  hit_price : ℚ
  units_closed : ℤ
  remaining_units : ℤ
  paper_trade : Bool
  auto_processed : Bool
deriving DecidableEq, Repr

/-- The entry alert record `process_plan_trades` builds
(identification and message fields are not modelled). -/
structure EntryAlert where
  hit_date : ℕ
  entry_price : ℚ
  paper_trade : Bool
  auto_opened : Bool
deriving DecidableEq, Repr

/-- The live price of the level with the given id (the alert loop reads
`hit.level.price` from the ORM object after processing, so a breakeven move
that ran in between is visible). -/
def levelPriceById (t : Trade) (levelId : ℕ) (fallback : ℚ) : ℚ :=
  match t.exit_levels.find? (fun l => l.id == levelId) with
  | some l => l.price
  | none => fallback

/-- What `process_open_trades` does to one Open trade, with the counters it
contributes: (trade after processing, simple alerts, layered alerts,
auto_closed, partial closes, conflicts). -/
structure OpenProcResult where
  trade : Trade
  sltp_alerts : List SLTPAlert
  layered_alerts : List LayeredAlert
  autoClosedCount : ℕ
  partClosedCount : ℕ
  conflictCount : ℕ
deriving DecidableEq, Repr

/-- The per-trade body of `process_open_trades`: a layered trade goes through
`process_layered_hits` unconditionally (one alert per hit, `auto_processed`
mirroring `paper_trade`); a simple trade's first hit is classified — BOTH
counts a conflict and mutates nothing, a single-sided hit auto-closes only a
paper trade and otherwise only produces an advisory alert. -/
def process_open_trade (t : Trade) (bars : List MarketData) :
    Except EngineError OpenProcResult :=
  if t.is_layered then
    match process_layered_hits t bars with
    | .error e => .error e
    | .ok (t', hits) =>
      .ok { trade := t',
            sltp_alerts := [],
            layered_alerts := hits.map (fun h =>
              { level_type := h.level.level_type,
                level_index := h.level.order_index,
                hit_date := h.hit_date,
                hit_price := levelPriceById t' h.level.id h.level.price,
                units_closed := h.units_to_close,
                remaining_units := pyOrInt t'.remaining_units 0,
                paper_trade := t.paper_trade,
                auto_processed := t.paper_trade }),
            autoClosedCount := 0,
            partClosedCount := hits.length,
            conflictCount := 0 }
  else
    match detect_sltp_hit t bars with
    | none => .ok { trade := t, sltp_alerts := [], layered_alerts := [],
                    autoClosedCount := 0, partClosedCount := 0, conflictCount := 0 }
    | some hit =>
      if hit.hit_type = SLTPHitType.BOTH then
        .ok { trade := t,
              sltp_alerts := [{ hit_type := hit.hit_type, hit_date := hit.hit_date,
                                hit_price := hit.hit_price, paper_trade := t.paper_trade,
                                auto_closed := false }],
              layered_alerts := [], autoClosedCount := 0, partClosedCount := 0,
              conflictCount := 1 }
      else if t.paper_trade then
        .ok { trade := auto_close_paper_trade t hit,
              sltp_alerts := [{ hit_type := hit.hit_type, hit_date := hit.hit_date,
                                hit_price := hit.hit_price, paper_trade := true,
                                auto_closed := true }],
              layered_alerts := [], autoClosedCount := 1, partClosedCount := 0,
              conflictCount := 0 }
      else
        .ok { trade := t,
              sltp_alerts := [{ hit_type := hit.hit_type, hit_date := hit.hit_date,
                                hit_price := hit.hit_price, paper_trade := false,
                                auto_closed := false }],
              layered_alerts := [], autoClosedCount := 0, partClosedCount := 0,
              conflictCount := 0 }

/-- `sltp_detection_service.process_open_trades` over the user's trades: the
query selects Open trades (others pass through untouched); each selected
trade is processed by the per-trade body and counters/alerts accumulate. -/
def process_open_trades (trades : List Trade) (bars : List MarketData) :
    Except EngineError (List Trade × List SLTPAlert × List LayeredAlert × ℕ × ℕ × ℕ) :=
  match trades with
  | [] => .ok ([], [], [], 0, 0, 0)
  | t :: rest =>
    if t.status = TradeStatus.OPEN then
      match process_open_trade t bars with
      | .error e => .error e
      | .ok r =>
        match process_open_trades rest bars with
        | .error e => .error e
        | .ok (ts, sa, la, ac, pc, cc) =>
          .ok (r.trade :: ts, r.sltp_alerts ++ sa, r.layered_alerts ++ la,
               r.autoClosedCount + ac, r.partClosedCount + pc, r.conflictCount + cc)
    else
      match process_open_trades rest bars with
      | .error e => .error e
      | .ok (ts, sa, la, ac, pc, cc) => .ok (t :: ts, sa, la, ac, pc, cc)

/-- The per-trade body of `process_plan_trades`: an entry hit auto-opens
only a paper trade; a non-paper trade only receives an advisory alert.
Returns (trade, alerts, auto_opened contribution). -/
def process_plan_trade (t : Trade) (bars : List MarketData) :
    Trade × List EntryAlert × ℕ :=
  match detect_entry_hit t bars with
  | none => (t, [], 0)
  | some hit =>
    if t.paper_trade then
      (auto_open_paper_trade t hit,
       [{ hit_date := hit.hit_date, entry_price := hit.entry_price,
          paper_trade := true, auto_opened := true }], 1)
    else
      (t, [{ hit_date := hit.hit_date, entry_price := hit.entry_price,
             paper_trade := false, auto_opened := false }], 0)

/-- Written from the spec's words, for comparison with the code
(`units_to_close = round(trade.units * level.units_pct)`, floored at 1 unit
minimum, capped at the trade's current `remaining_units`). -/
def specUnitsForLevel (units remaining : ℤ) (pct : ℚ) : ℤ :=
  min remaining (max 1 (pyRound ((units : ℚ) * pct)))

/-- Written from the spec's words, for comparison with the code: the "is
layered" boolean `replaceLevels` returns is `true` iff more than 2 total
levels remain (more than a single SL+TP pair). -/
def specReplaceIsLayered (totalLevelsRemaining : ℕ) : Bool :=
  decide (2 < totalLevelsRemaining)

/-- The Hit levels of a level list. -/
def hitPart (ls : List ExitLevel) : List ExitLevel :=
  ls.filter (fun l => l.status == ExitLevelStatus.HIT)

/-- The Pending levels of a level list. -/
def pendingPart (ls : List ExitLevel) : List ExitLevel :=
  ls.filter (fun l => l.status == ExitLevelStatus.PENDING)

/-- The Cancelled levels of a level list. -/
def cancPart (ls : List ExitLevel) : List ExitLevel :=
  ls.filter (fun l => l.status == ExitLevelStatus.CANCELLED)

/-- The levels of one type in a level list. -/
def typePart (ty : ExitLevelType) (ls : List ExitLevel) : List ExitLevel :=
  ls.filter (fun l => l.level_type == ty)

/-- Σ `units_to_close` over a detected hit list. -/
def sumHits (hs : List LayeredLevelHit) : ℤ :=
  (hs.map (fun h => h.units_to_close)).sum

/-- `[s, s+1, …, s+n-1]` (the expected `order_index` sequence). -/
def seqFrom : ℤ → ℕ → List ℤ
  | _, 0 => []
  | s, n + 1 => s :: seqFrom (s + 1) n

/-- A pending exit level (fixture helper). -/
def mkPending (i : ℕ) (ty : ExitLevelType) (price pct : ℚ) (oi : ℤ) : ExitLevel :=
  { id := i, level_type := ty, price := price, units_pct := pct, order_index := oi,
    status := ExitLevelStatus.PENDING, hit_date := none, units_closed := none,
    move_sl_to_breakeven := false }

/-- Concrete input for C1: a layered long trade (entry 100, 100 units,
TP 50%@110 and TP 50%@120, no SL level), Open since day 10, with
`paper_trade = false`. -/
def tradeC1 : Trade :=
  { status := TradeStatus.OPEN, amount := 10000, units := 100, entry_price := 100,
    date_planned := some 1, date_actual := some 10, exit_date := none,
    exit_type := none, exit_price := none, paper_trade := false,
    is_layered := true, remaining_units := some 100,
    exit_levels := [mkPending 1 ExitLevelType.TP 110 (5/10) 1,
                    mkPending 2 ExitLevelType.TP 120 (5/10) 2] }

/-- A bar with high 112 / low 99 on day 11: touches only TP1. -/
def barsC1 : List MarketData := [{ date := 11, high := some 112, low := some 99 }]

/-- An already-hit exit level (fixture helper). -/
def mkHit (i : ℕ) (ty : ExitLevelType) (price pct : ℚ) (oi : ℤ) (hd : ℕ) (uc : ℤ) :
    ExitLevel :=
  { id := i, level_type := ty, price := price, units_pct := pct, order_index := oi,
    status := ExitLevelStatus.HIT, hit_date := some hd, units_closed := some uc,
    move_sl_to_breakeven := false }

/-- Concrete input for C2: an Open layered trade of 3 units with two 50% TP
levels; `round(3 * 0.5) = 2`, so two manual level hits close 2 + 2 = 4 units
and drive `remaining_units` to -1. -/
def tradeC2 : Trade :=
  { status := TradeStatus.OPEN, amount := 300, units := 3, entry_price := 100,
    date_planned := some 1, date_actual := some 10, exit_date := none,
    exit_type := none, exit_price := none, paper_trade := false,
    is_layered := true, remaining_units := some 3,
    exit_levels := [mkPending 1 ExitLevelType.TP 120 (5/10) 1,
                    mkPending 2 ExitLevelType.TP 130 (5/10) 2,
                    mkPending 3 ExitLevelType.SL 90 1 1] }

/-- Concrete input for C3: an Open layered trade of 10 units with a
19% TP level; truncation gives `int(1.9) = 1` where rounding gives 2. -/
def tradeC3 : Trade :=
  { status := TradeStatus.OPEN, amount := 1000, units := 10, entry_price := 100,
    date_planned := some 1, date_actual := some 10, exit_date := none,
    exit_type := none, exit_price := none, paper_trade := false,
    is_layered := true, remaining_units := some 10,
    exit_levels := [mkPending 1 ExitLevelType.TP 110 (19/100) 1,
                    mkPending 2 ExitLevelType.TP 120 (81/100) 2] }

/-- The C3 bar: high 112 touches only the 19% TP at 110. -/
def barsC3 : List MarketData := [{ date := 11, high := some 112, low := some 99 }]

/-- Concrete input for C3's manual path: a 5% level of 10 units;
`round(0.5) = 0`, so the manual hit closes 0 units (no 1-unit minimum). -/
def tradeC3b : Trade :=
  { status := TradeStatus.OPEN, amount := 1000, units := 10, entry_price := 100,
    date_planned := some 1, date_actual := some 10, exit_date := none,
    exit_type := none, exit_price := none, paper_trade := false,
    is_layered := true, remaining_units := some 10,
    exit_levels := [mkPending 1 ExitLevelType.TP 110 (1/20) 1,
                    mkPending 2 ExitLevelType.TP 120 (19/20) 2] }

/-- Concrete input for C4: the spec's short paper trade (entry 100, SL 105,
TP 90), Open since day 10. -/
def tradeC4 : Trade :=
  { status := TradeStatus.OPEN, amount := 1000, units := 10, entry_price := 100,
    date_planned := some 1, date_actual := some 10, exit_date := none,
    exit_type := none, exit_price := none, paper_trade := true,
    is_layered := false, remaining_units := some 10,
    exit_levels := [mkPending 1 ExitLevelType.SL 105 1 1,
                    mkPending 2 ExitLevelType.TP 90 1 1] }

/-- The C4 bar: high 106 and low 88 on day 10 trigger both SL and TP. -/
def barsC4 : List MarketData := [{ date := 10, high := some 106, low := some 88 }]

/-- Concrete input for C5: the spec's layered long trade after TP1 (50%@110)
already fired, leaving 50 remaining units, with TP2 30%@120, TP3 20%@130 and
SL 100%@95 still pending. -/
def tradeC5 : Trade :=
  { status := TradeStatus.OPEN, amount := 10000, units := 100, entry_price := 100,
    date_planned := some 1, date_actual := some 10, exit_date := none,
    exit_type := none, exit_price := none, paper_trade := false,
    is_layered := true, remaining_units := some 50,
    exit_levels := [mkHit 1 ExitLevelType.TP 110 (5/10) 1 11 50,
                    mkPending 2 ExitLevelType.TP 120 (3/10) 2,
                    mkPending 3 ExitLevelType.TP 130 (2/10) 3,
                    mkPending 4 ExitLevelType.SL 95 1 1] }

/-- The C5 bar: high 135 touches TP2 and TP3 the same day. -/
def barsC5 : List MarketData := [{ date := 12, high := some 135, low := some 99 }]

/-- The hits C5's detection finds: TP2 then TP3, both on day 12. -/
def hitsC5 : List LayeredLevelHit :=
  [{ level := mkPending 2 ExitLevelType.TP 120 (3/10) 2, hit_date := 12,
     units_to_close := 30 },
   { level := mkPending 3 ExitLevelType.TP 130 (2/10) 3, hit_date := 12,
     units_to_close := 20 }]

/-- The trade C5's processing produces: fully closed at the weighted exit
price 117, exit date 12, exit type TP; the SL level is left Pending. -/
def tradeC5done : Trade :=
  { status := TradeStatus.CLOSE, amount := 10000, units := 100, entry_price := 100,
    date_planned := some 1, date_actual := some 10, exit_date := some 12,
    exit_type := some ExitType.TP, exit_price := some 117, paper_trade := false,
    is_layered := true, remaining_units := some 0,
    exit_levels := [mkHit 1 ExitLevelType.TP 110 (5/10) 1 11 50,
                    mkHit 2 ExitLevelType.TP 120 (3/10) 2 12 30,
                    mkHit 3 ExitLevelType.TP 130 (2/10) 3 12 20,
                    mkPending 4 ExitLevelType.SL 95 1 1] }

/-- Concrete input for C6: an Open trade with two Pending levels, manually
closed through the trade update. -/
def tradeC6 : Trade :=
  { status := TradeStatus.OPEN, amount := 1000, units := 10, entry_price := 100,
    date_planned := some 1, date_actual := some 10, exit_date := none,
    exit_type := none, exit_price := none, paper_trade := false,
    is_layered := true, remaining_units := some 10,
    exit_levels := [mkPending 1 ExitLevelType.SL 95 1 1,
                    mkPending 2 ExitLevelType.TP 110 1 1] }

/-- The C6 manual close request: status → Close with exit data supplied. -/
def uC6 : TradeUpdates :=
  { status := some TradeStatus.CLOSE, date_actual := none, exit_date := some 20,
    exit_type := some ExitType.TP, exit_price := some 105, entry_price := none,
    units := none, exit_levels := none }

/-- Concrete input for C7: one Pending SL+TP pair about to be replaced. -/
def lvlsC7 : List ExitLevel :=
  [mkPending 1 ExitLevelType.SL 95 1 1, mkPending 2 ExitLevelType.TP 110 1 1]

/-- The C7 replacement specs: again a single SL+TP pair (2 levels). -/
def specsC7 : List LevelSpec :=
  [{ level_type := ExitLevelType.SL, price := 90, units_pct := 1,
     move_sl_to_breakeven := false },
   { level_type := ExitLevelType.TP, price := 115, units_pct := 1,
     move_sl_to_breakeven := false }]

/-- Concrete input for C10: an Open trade with a Hit 50% TP level
(5 units closed on day 11) and a Pending SL level. -/
def tradeC10 : Trade :=
  { status := TradeStatus.OPEN, amount := 1000, units := 10, entry_price := 100,
    date_planned := some 1, date_actual := some 10, exit_date := none,
    exit_type := none, exit_price := none, paper_trade := false,
    is_layered := true, remaining_units := some 5,
    exit_levels := [mkHit 1 ExitLevelType.TP 110 (5/10) 1 11 5,
                    mkPending 2 ExitLevelType.SL 95 1 1] }

end Asistrader

namespace Asistrader

/-! ## Helper lemmas -/

theorem beq_eltype_def (a b : ExitLevelType) : (a == b) = decide (a = b) := rfl

theorem beq_elstatus_def (a b : ExitLevelStatus) : (a == b) = decide (a = b) := rfl

theorem beq_tstatus_def (a b : TradeStatus) : (a == b) = decide (a = b) := rfl

theorem beq_extype_def (a b : ExitType) : (a == b) = decide (a = b) := rfl

theorem beq_hittype_def (a b : SLTPHitType) : (a == b) = decide (a = b) := rfl

theorem unitsToCloseDetect_eq (u r : ℤ) (pct : ℚ) :
    unitsToCloseDetect u r pct = min r (max 1 (pyTrunc ((u : ℚ) * pct))) := by
  unfold unitsToCloseDetect
  dsimp only
  omega

theorem sumHits_nil : sumHits [] = 0 := rfl

theorem sumHits_cons (h : LayeredLevelHit) (hs : List LayeredLevelHit) :
    sumHits (h :: hs) = h.units_to_close + sumHits hs := by
  simp [sumHits]

theorem sumHits_append (a b : List LayeredLevelHit) :
    sumHits (a ++ b) = sumHits a + sumHits b := by
  simp [sumHits]

theorem scanLevelsForDay_spec (t : Trade) (day : MarketData) :
    ∀ (levels : List ExitLevel) (hitIds : List ℕ) (rem : ℤ), 0 ≤ rem →
      (scanLevelsForDay t day levels hitIds rem).2.2 =
        rem - sumHits (scanLevelsForDay t day levels hitIds rem).1 ∧
      0 ≤ (scanLevelsForDay t day levels hitIds rem).2.2 ∧
      (∀ h ∈ (scanLevelsForDay t day levels hitIds rem).1, 0 ≤ h.units_to_close) := by
  intro levels
  induction levels with
  | nil =>
    intro hitIds rem h0
    simp only [scanLevelsForDay, sumHits_nil]
    exact ⟨by omega, h0, by intro h hm; cases hm⟩
  | cons l rest ih =>
    intro hitIds rem h0
    by_cases hc : hitIds.contains l.id = true
    · simp only [scanLevelsForDay, if_pos hc]
      exact ih hitIds rem h0
    · by_cases hh : check_layered_level_hit t l day = true
      · have hu0 : 0 ≤ unitsToCloseDetect t.units rem l.units_pct := by
          rw [unitsToCloseDetect_eq]; omega
        have hrem : 0 ≤ rem - unitsToCloseDetect t.units rem l.units_pct := by
          rw [unitsToCloseDetect_eq]; omega
        obtain ⟨e1, e2, e3⟩ :=
          ih (l.id :: hitIds) (rem - unitsToCloseDetect t.units rem l.units_pct) hrem
        simp only [scanLevelsForDay, if_neg hc, if_pos hh, sumHits_cons]
        refine ⟨by omega, by omega, ?_⟩
        intro h hmem
        rcases List.mem_cons.mp hmem with h1 | h1
        · rw [h1]; exact hu0
        · exact e3 h h1
      · simp only [scanLevelsForDay, if_neg hc, if_neg hh]
        exact ih hitIds rem h0

theorem scanDays_spec (t : Trade) (sortedPending : List ExitLevel) :
    ∀ (days : List MarketData) (hitIds : List ℕ) (rem : ℤ), 0 ≤ rem →
      sumHits (scanDays t sortedPending days hitIds rem) ≤ rem ∧
      (∀ h ∈ scanDays t sortedPending days hitIds rem, 0 ≤ h.units_to_close) := by
  intro days
  induction days with
  | nil => intro hitIds rem h0; simp [scanDays, sumHits]; omega
  | cons d rest ih =>
    intro hitIds rem h0
    have hday := scanLevelsForDay_spec t d sortedPending hitIds rem h0
    simp only [scanDays]
    by_cases hstop : (scanLevelsForDay t d sortedPending hitIds rem).2.2 ≤ 0
    · simp only [hstop, if_true]
      exact ⟨by omega, hday.2.2⟩
    · simp only [hstop, if_false]
      have hrec := ih (scanLevelsForDay t d sortedPending hitIds rem).2.1
        (scanLevelsForDay t d sortedPending hitIds rem).2.2 (by omega)
      constructor
      · simp only [sumHits, List.map_append, List.sum_append] at hrec ⊢
        have h1 := hday.1
        simp only [sumHits] at h1
        omega
      · intro h hmem
        rcases List.mem_append.mp hmem with hm | hm
        · exact hday.2.2 h hm
        · exact hrec.2 h hm

theorem updateFirstById_append (levelId : ℕ) (f : ExitLevel → ExitLevel) :
    ∀ (pre : List ExitLevel) (l : ExitLevel) (post : List ExitLevel),
      (∀ x ∈ pre, (x.id == levelId) = false) → l.id = levelId →
      updateFirstById levelId f (pre ++ l :: post) = pre ++ f l :: post := by
  intro pre
  induction pre with
  | nil =>
    intro l post _ hl
    simp only [List.nil_append, updateFirstById, if_pos hl]
  | cons x xs ih =>
    intro l post hpre hl
    have hx : ¬ x.id = levelId := by
      have := hpre x (List.mem_cons_self x xs)
      simpa using this
    simp only [List.cons_append, updateFirstById, if_neg hx, List.append_eq]
    rw [ih l post (fun y hy => hpre y (List.mem_cons_of_mem x hy)) hl]

theorem sumClosed_append (a b : List ExitLevel) :
    sumClosed (a ++ b) = sumClosed a + sumClosed b := by
  simp [sumClosed]

theorem sumClosed_nonneg (ls : List ExitLevel)
    (h : ∀ l ∈ ls, 0 ≤ l.units_closed.getD 0) : 0 ≤ sumClosed ls := by
  induction ls with
  | nil => simp [sumClosed]
  | cons l rest ih =>
    have h1 := h l (List.mem_cons_self l rest)
    have h2 := ih (fun x hx => h x (List.mem_cons_of_mem l hx))
    simp only [sumClosed, List.map_cons, List.sum_cons] at h2 ⊢
    omega

theorem hitPart_append (a b : List ExitLevel) :
    hitPart (a ++ b) = hitPart a ++ hitPart b := by
  simp [hitPart]

theorem cancPart_append (a b : List ExitLevel) :
    cancPart (a ++ b) = cancPart a ++ cancPart b := by
  simp [cancPart]

/-- Success of `mark_level_hit` decomposed: the list splits at the first
level carrying the id, that level was Pending, and only it changes. -/
theorem mark_level_hit_ok (levels : List ExitLevel) (levelId : ℕ) (d : ℕ) (u : ℤ)
    (levels' : List ExitLevel)
    (h : mark_level_hit levels levelId d u = .ok levels') :
    ∃ pre l post, levels = pre ++ l :: post ∧
      (∀ x ∈ pre, (x.id == levelId) = false) ∧
      l.id = levelId ∧ l.status = ExitLevelStatus.PENDING ∧
      levels' = pre ++
        { l with status := ExitLevelStatus.HIT, hit_date := some d,
                 units_closed := some u } :: post := by
  unfold mark_level_hit at h
  cases hf : levels.find? (fun l => l.id == levelId) with
  | none => rw [hf] at h; cases h
  | some l =>
    rw [hf] at h
    dsimp only at h
    by_cases h1 : l.status = ExitLevelStatus.HIT
    · rw [if_pos h1] at h; cases h
    · rw [if_neg h1] at h
      by_cases h2 : l.status = ExitLevelStatus.CANCELLED
      · rw [if_pos h2] at h; cases h
      · rw [if_neg h2] at h
        have hpend : l.status = ExitLevelStatus.PENDING := by
          cases hs : l.status <;> simp_all
        obtain ⟨hp, pre, post, hsplit, hpre⟩ := List.find?_eq_some.mp hf
        have hid : l.id = levelId := by simpa using hp
        have hpre' : ∀ x ∈ pre, (x.id == levelId) = false := by
          intro x hx
          have := hpre x hx
          simpa using this
        refine ⟨pre, l, post, hsplit, hpre', hid, hpend, ?_⟩
        cases h
        rw [hsplit, updateFirstById_append levelId _ pre l post hpre' hid]

theorem breakevenSLs_hitPart (e : ℚ) (ls : List ExitLevel) :
    hitPart (breakevenSLs e ls) = hitPart ls := by
  induction ls with
  | nil => rfl
  | cons l rest ih =>
    by_cases hc : l.level_type = ExitLevelType.SL ∧ l.status = ExitLevelStatus.PENDING
    · have hns : ¬ l.status = ExitLevelStatus.HIT := by
        rw [hc.2]; simp
      simp only [breakevenSLs, List.map_cons, if_pos hc] at ih ⊢
      simp only [hitPart, List.filter_cons] at ih ⊢
      simp only [beq_elstatus_def]
      rw [hc.2]
      simpa [hitPart, breakevenSLs] using ih
    · simp only [breakevenSLs, List.map_cons, if_neg hc] at ih ⊢
      simp only [hitPart, List.filter_cons] at ih ⊢
      cases hs : (l.status == ExitLevelStatus.HIT) <;>
        simpa [hs, hitPart, breakevenSLs] using ih

theorem breakevenSLs_cancPart (e : ℚ) (ls : List ExitLevel) :
    cancPart (breakevenSLs e ls) = cancPart ls := by
  induction ls with
  | nil => rfl
  | cons l rest ih =>
    by_cases hc : l.level_type = ExitLevelType.SL ∧ l.status = ExitLevelStatus.PENDING
    · simp only [breakevenSLs, List.map_cons, if_pos hc] at ih ⊢
      simp only [cancPart, List.filter_cons] at ih ⊢
      simp only [beq_elstatus_def]
      rw [hc.2]
      simpa [cancPart, breakevenSLs] using ih
    · simp only [breakevenSLs, List.map_cons, if_neg hc] at ih ⊢
      simp only [cancPart, List.filter_cons] at ih ⊢
      cases hs : (l.status == ExitLevelStatus.CANCELLED) <;>
        simpa [hs, cancPart, breakevenSLs] using ih

theorem cancel_remaining_hitPart (ls : List ExitLevel) :
    hitPart (cancel_remaining_levels ls) = hitPart ls := by
  induction ls with
  | nil => rfl
  | cons l rest ih =>
    by_cases hc : l.status = ExitLevelStatus.PENDING
    · simp only [cancel_remaining_levels, List.map_cons, if_pos hc] at ih ⊢
      simp only [hitPart, List.filter_cons] at ih ⊢
      simp only [beq_elstatus_def]
      rw [hc]
      simpa [hitPart, cancel_remaining_levels] using ih
    · simp only [cancel_remaining_levels, List.map_cons, if_neg hc] at ih ⊢
      simp only [hitPart, List.filter_cons] at ih ⊢
      cases hs : (l.status == ExitLevelStatus.HIT) <;>
        simpa [hs, hitPart, cancel_remaining_levels] using ih

theorem cancel_remaining_no_pending (ls : List ExitLevel) :
    pendingPart (cancel_remaining_levels ls) = [] := by
  induction ls with
  | nil => rfl
  | cons l rest ih =>
    by_cases hc : l.status = ExitLevelStatus.PENDING
    · simp only [cancel_remaining_levels, List.map_cons, if_pos hc] at ih ⊢
      simpa [pendingPart, cancel_remaining_levels] using ih
    · simp only [cancel_remaining_levels, List.map_cons, if_neg hc] at ih ⊢
      simp only [pendingPart, List.filter_cons] at ih ⊢
      have : (l.status == ExitLevelStatus.PENDING) = false := by
        simpa [beq_elstatus_def] using hc
      simpa [this, pendingPart, cancel_remaining_levels] using ih

theorem detect_layered_hits_bounds (t : Trade) (bars : List MarketData) (r : ℤ)
    (hr : t.remaining_units = some r) (hpos : 0 < r) :
    sumHits (detect_layered_hits t bars) ≤ r ∧
    (∀ h ∈ detect_layered_hits t bars, 0 ≤ h.units_to_close) := by
  unfold detect_layered_hits
  by_cases hst : t.status = TradeStatus.OPEN
  · simp only [hst, if_true]
    cases hda : t.date_actual with
    | none => refine ⟨by simp [sumHits]; omega, by simp⟩
    | some d0 =>
      cases hpend : t.exit_levels.filter (fun l => l.status == ExitLevelStatus.PENDING) with
      | nil => refine ⟨by simp [sumHits]; omega, by simp⟩
      | cons p ps =>
        simp only
        have hinit : pyOrInt t.remaining_units t.units = r := by
          rw [hr]; simp [pyOrInt]; omega
        rw [hinit]
        exact scanDays_spec t _ _ _ r (by omega)
  · refine ⟨by simp [hst, sumHits]; omega, by simp [hst]⟩

theorem hitLevels_eq (t : Trade) : hitLevels t = hitPart t.exit_levels := rfl

theorem settleClose_ok (t t' : Trade) (h : settleClose t = .ok t') :
    t'.status = TradeStatus.CLOSE ∧ t'.remaining_units = t.remaining_units ∧
    t'.exit_levels = t.exit_levels ∧ t'.units = t.units ∧
    t'.entry_price = t.entry_price := by
  unfold settleClose at h
  dsimp only at h
  split at h
  · cases h
    exact ⟨rfl, rfl, rfl, rfl, rfl⟩
  · split at h
    · cases h
    · cases h
      refine ⟨?_, ?_, ?_, ?_, ?_⟩ <;> (dsimp only; split <;> rfl)

theorem settleClose_settled (t t' : Trade) (h : settleClose t = .ok t')
    (hpos : 0 < sumClosed (hitPart t.exit_levels)) :
    t'.exit_price = some (sumWeighted (hitPart t.exit_levels) /
      ((sumClosed (hitPart t.exit_levels) : ℤ) : ℚ)) ∧
    t'.exit_date = ((hitPart t.exit_levels).filterMap (fun l => l.hit_date)).max? ∧
    t'.exit_type = some
      (if sumClosed ((hitPart t.exit_levels).filter (fun l => l.level_type == ExitLevelType.SL)) ≤
          sumClosed ((hitPart t.exit_levels).filter (fun l => l.level_type == ExitLevelType.TP))
       then ExitType.TP else ExitType.SL) := by
  have hlv : hitLevels { t with status := TradeStatus.CLOSE } = hitPart t.exit_levels := rfl
  unfold settleClose at h
  dsimp only at h
  split at h
  · rename_i hnil
    rw [hlv] at hnil
    rw [hnil] at hpos
    simp [sumClosed] at hpos
  · rename_i hl hcons
    split at h
    · cases h
    · rename_i dmax hmax
      cases h
      have hq : 0 < sumClosed (hitLevels
          { t with status := TradeStatus.CLOSE }) := by rw [hlv]; exact hpos
      rw [hlv] at hmax
      refine ⟨?_, ?_, ?_⟩
      · dsimp only
        rw [if_pos hq]
        simp only [hlv]
      · dsimp only
        exact hmax.symm
      · dsimp only
        simp only [hlv]

theorem hitPart_cons (a : ExitLevel) (ls : List ExitLevel) :
    hitPart (a :: ls) =
      if (a.status == ExitLevelStatus.HIT) = true then a :: hitPart ls else hitPart ls := by
  simp [hitPart, List.filter_cons]

theorem cancPart_cons (a : ExitLevel) (ls : List ExitLevel) :
    cancPart (a :: ls) =
      if (a.status == ExitLevelStatus.CANCELLED) = true then a :: cancPart ls
      else cancPart ls := by
  simp [cancPart, List.filter_cons]

theorem applyLayeredHit_ok (t : Trade) (hd : LayeredLevelHit) (t₁ : Trade)
    (h : applyLayeredHit t hd = .ok t₁) :
    t₁.status = t.status ∧ t₁.units = t.units ∧ t₁.entry_price = t.entry_price ∧
    t₁.remaining_units = some
      ((match t.remaining_units with | none => t.units | some r => r) - hd.units_to_close) ∧
    sumClosed (hitPart t₁.exit_levels) =
      sumClosed (hitPart t.exit_levels) + hd.units_to_close ∧
    cancPart t₁.exit_levels = cancPart t.exit_levels ∧
    (∃ l' ∈ hitPart t₁.exit_levels, l'.hit_date ≠ none) ∧
    (∀ x ∈ hitPart t.exit_levels, x ∈ hitPart t₁.exit_levels) := by
  unfold applyLayeredHit at h
  cases hm : mark_level_hit t.exit_levels hd.level.id hd.hit_date hd.units_to_close with
  | error e =>
    rw [hm] at h
    cases h
  | ok levels₁ =>
    rw [hm] at h
    dsimp only at h
    obtain ⟨pre, l, post, hsplit, hpre, hid, hpend, hlv⟩ :=
      mark_level_hit_ok t.exit_levels hd.level.id hd.hit_date hd.units_to_close levels₁ hm
    have hnewhit :
        (({ l with
              status := ExitLevelStatus.HIT
              hit_date := some hd.hit_date
              units_closed := some hd.units_to_close } : ExitLevel).status ==
          ExitLevelStatus.HIT) = true := by simp [beq_elstatus_def]
    have hlnothit : (l.status == ExitLevelStatus.HIT) = false := by
      simp [beq_elstatus_def, hpend]
    have hlnotcanc : (l.status == ExitLevelStatus.CANCELLED) = false := by
      simp [beq_elstatus_def, hpend]
    have hhit1 : hitPart levels₁ =
        hitPart pre ++
          ({ l with
               status := ExitLevelStatus.HIT
               hit_date := some hd.hit_date
               units_closed := some hd.units_to_close } : ExitLevel) :: hitPart post := by
      rw [hlv, hitPart_append, hitPart_cons, if_pos hnewhit]
    have hhit0 : hitPart t.exit_levels = hitPart pre ++ hitPart post := by
      rw [hsplit, hitPart_append, hitPart_cons, hlnothit]
      simp
    have hcanc1 : cancPart levels₁ = cancPart t.exit_levels := by
      rw [hlv, hsplit, cancPart_append, cancPart_append, cancPart_cons, cancPart_cons,
        hlnotcanc]
      simp [beq_elstatus_def]
    have hhit2 : ∀ e : ℚ, hitPart (if hd.level.move_sl_to_breakeven ∧
        hd.level.level_type = ExitLevelType.TP then breakevenSLs e levels₁ else levels₁) =
        hitPart levels₁ := by
      intro e
      by_cases hb : hd.level.move_sl_to_breakeven ∧ hd.level.level_type = ExitLevelType.TP
      · rw [if_pos hb, breakevenSLs_hitPart]
      · rw [if_neg hb]
    have hcanc2 : ∀ e : ℚ, cancPart (if hd.level.move_sl_to_breakeven ∧
        hd.level.level_type = ExitLevelType.TP then breakevenSLs e levels₁ else levels₁) =
        cancPart levels₁ := by
      intro e
      by_cases hb : hd.level.move_sl_to_breakeven ∧ hd.level.level_type = ExitLevelType.TP
      · rw [if_pos hb, breakevenSLs_cancPart]
      · rw [if_neg hb]
    cases h
    refine ⟨rfl, rfl, rfl, rfl, ?_, ?_, ?_, ?_⟩
    · dsimp only
      rw [hhit2 t.entry_price, hhit1, hhit0, sumClosed_append, sumClosed_append]
      simp only [sumClosed, List.map_cons, List.sum_cons, Option.getD_some]
      ring
    · dsimp only
      rw [hcanc2 t.entry_price, hcanc1]
    · dsimp only
      rw [hhit2 t.entry_price, hhit1]
      exact ⟨_, List.mem_append_right _ (List.mem_cons_self _ _), by simp⟩
    · intro x hx
      dsimp only
      rw [hhit2 t.entry_price, hhit1]
      rw [hhit0] at hx
      rcases List.mem_append.mp hx with hx1 | hx1
      · exact List.mem_append_left _ hx1
      · exact List.mem_append_right _ (List.mem_cons_of_mem _ hx1)

theorem applyLayeredHits_ok :
    ∀ (hs : List LayeredLevelHit) (t t₁ : Trade), applyLayeredHits t hs = .ok t₁ →
      t₁.status = t.status ∧ t₁.units = t.units ∧ t₁.entry_price = t.entry_price ∧
      (hs = [] → t₁ = t) ∧
      (hs ≠ [] →
        t₁.remaining_units = some
          ((match t.remaining_units with | none => t.units | some r => r) - sumHits hs) ∧
        sumClosed (hitPart t₁.exit_levels) =
          sumClosed (hitPart t.exit_levels) + sumHits hs ∧
        cancPart t₁.exit_levels = cancPart t.exit_levels ∧
        (∃ l' ∈ hitPart t₁.exit_levels, l'.hit_date ≠ none)) := by
  intro hs
  induction hs with
  | nil =>
    intro t t₁ h
    unfold applyLayeredHits at h
    cases h
    exact ⟨rfl, rfl, rfl, fun _ => rfl, fun hne => absurd rfl hne⟩
  | cons hd rest ih =>
    intro t t₁ h
    unfold applyLayeredHits at h
    cases hstep : applyLayeredHit t hd with
    | error e => rw [hstep] at h; cases h
    | ok t₂ =>
      rw [hstep] at h
      obtain ⟨s1, s2, s3, s4, s5, s6, s7, _⟩ := applyLayeredHit_ok t hd t₂ hstep
      obtain ⟨r1, r2, r3, r4, r5⟩ := ih t₂ t₁ h
      refine ⟨r1.trans s1, r2.trans s2, r3.trans s3, ?_, ?_⟩
      · intro hne
        exact absurd hne (List.cons_ne_nil hd rest)
      · intro _
        by_cases hrest : rest = []
        · subst hrest
          have ht1 : t₁ = t₂ := r4 rfl
          subst ht1
          refine ⟨?_, ?_, s6, s7⟩
          · rw [s4, sumHits_cons, sumHits_nil]; ring_nf
          · rw [s5, sumHits_cons, sumHits_nil]; ring_nf
        · obtain ⟨q1, q2, q3, q4⟩ := r5 hrest
          refine ⟨?_, ?_, q3.trans s6, q4⟩
          · rw [q1, s4]
            dsimp only
            rw [sumHits_cons]
            congr 1
            ring
          · rw [q2, s5, sumHits_cons]
            ring

theorem process_layered_hits_cases (t : Trade) (bars : List MarketData)
    (t' : Trade) (hits : List LayeredLevelHit)
    (h : process_layered_hits t bars = .ok (t', hits)) :
    hits = detect_layered_hits t bars ∧
    ((hits = [] ∧ t' = t) ∨
     (hits ≠ [] ∧ ∃ t₁, applyLayeredHits t hits = .ok t₁ ∧
        ((∃ r₁, t₁.remaining_units = some r₁ ∧ r₁ ≤ 0 ∧ settleClose t₁ = .ok t') ∨
         (∃ r₁, t₁.remaining_units = some r₁ ∧ 0 < r₁ ∧ t' = t₁) ∨
         (t₁.remaining_units = none ∧ t' = t₁)))) := by
  unfold process_layered_hits at h
  split at h
  · rename_i hdet
    cases h
    exact ⟨hdet.symm, Or.inl ⟨rfl, rfl⟩⟩
  · rename_i hs hne
    cases happ : applyLayeredHits t (detect_layered_hits t bars) with
    | error e => rw [happ] at h; cases h
    | ok t₁ =>
      rw [happ] at h
      dsimp only at h
      cases hru : t₁.remaining_units with
      | none =>
        rw [hru] at h
        dsimp only at h
        cases h
        exact ⟨rfl, Or.inr ⟨hne, _, happ, Or.inr (Or.inr ⟨hru, rfl⟩)⟩⟩
      | some r₁ =>
        rw [hru] at h
        dsimp only at h
        by_cases hr : r₁ ≤ 0
        · rw [if_pos hr] at h
          cases hsettle : settleClose t₁ with
          | error e => rw [hsettle] at h; cases h
          | ok t₂ =>
            rw [hsettle] at h
            cases h
            exact ⟨rfl, Or.inr ⟨hne, _, happ, Or.inl ⟨r₁, hru, hr, hsettle⟩⟩⟩
        · rw [if_neg hr] at h
          cases h
          exact ⟨rfl, Or.inr ⟨hne, _, happ, Or.inr (Or.inl ⟨r₁, hru, by omega, rfl⟩)⟩⟩

theorem updateFirstById_price_hitPart (p : ℚ) (levelId : ℕ) :
    ∀ ls : List ExitLevel,
      sumClosed (hitPart (updateFirstById levelId (fun l0 => { l0 with price := p }) ls)) =
        sumClosed (hitPart ls) := by
  intro ls
  induction ls with
  | nil => rfl
  | cons l rest ih =>
    by_cases hid : l.id = levelId
    · simp only [updateFirstById, if_pos hid, hitPart_cons]
      cases hs : (l.status == ExitLevelStatus.HIT) <;>
        simp [hs, sumClosed]
    · simp only [updateFirstById, if_neg hid, hitPart_cons]
      cases hs : (l.status == ExitLevelStatus.HIT) <;>
        simp [hs, sumClosed, hitPart] at ih ⊢ <;> omega

/-- Success of `apply_manual_level_hit` characterized: the closed amount is
`round(units * units_pct)` (no floor, no cap), `remaining_units` is seeded
from `units` when null and decremented by exactly that amount, the total of
closed units over Hit levels grows by it, and — when the new remainder is
≤ 0 — the trade is Closed with no Pending level left and the settlement
fields computed over its Hit levels. -/
theorem apply_manual_level_hit_ok (t : Trade) (levelId d : ℕ) (hp : Option ℚ)
    (level : ExitLevel) (t' : Trade)
    (hfind : t.exit_levels.find? (fun l => l.id == levelId) = some level)
    (h : apply_manual_level_hit t levelId d hp = .ok t') :
    t'.remaining_units = some
      ((match t.remaining_units with | none => t.units | some r => r) -
        pyRound ((t.units : ℚ) * level.units_pct)) ∧
    t'.units = t.units ∧
    sumClosed (hitPart t'.exit_levels) =
      sumClosed (hitPart t.exit_levels) + pyRound ((t.units : ℚ) * level.units_pct) ∧
    ((match t.remaining_units with | none => t.units | some r => r) -
        pyRound ((t.units : ℚ) * level.units_pct) ≤ 0 →
      t'.status = TradeStatus.CLOSE ∧ pendingPart t'.exit_levels = [] ∧
      (0 < sumClosed (hitPart t'.exit_levels) →
        t'.exit_price = some (sumWeighted (hitPart t'.exit_levels) /
          ((sumClosed (hitPart t'.exit_levels) : ℤ) : ℚ)) ∧
        t'.exit_date = ((hitPart t'.exit_levels).filterMap (fun l => l.hit_date)).max? ∧
        t'.exit_type = some
          (if sumClosed ((hitPart t'.exit_levels).filter
                (fun l => l.level_type == ExitLevelType.SL)) ≤
              sumClosed ((hitPart t'.exit_levels).filter
                (fun l => l.level_type == ExitLevelType.TP))
           then ExitType.TP else ExitType.SL))) ∧
    (0 < (match t.remaining_units with | none => t.units | some r => r) -
        pyRound ((t.units : ℚ) * level.units_pct) →
      t'.status = t.status) := by
  unfold apply_manual_level_hit at h
  rw [hfind] at h
  dsimp only at h
  cases hm : mark_level_hit t.exit_levels levelId d
      (pyRound ((t.units : ℚ) * level.units_pct)) with
  | error e => rw [hm] at h; cases h
  | ok levels₁ =>
    rw [hm] at h
    dsimp only at h
    obtain ⟨pre, l, post, hsplit, hpre, hid, hpend, hlv⟩ :=
      mark_level_hit_ok t.exit_levels levelId d
        (pyRound ((t.units : ℚ) * level.units_pct)) levels₁ hm
    have hsum1 : sumClosed (hitPart levels₁) =
        sumClosed (hitPart t.exit_levels) + pyRound ((t.units : ℚ) * level.units_pct) := by
      have hnewhit :
          ((({ l with
                status := ExitLevelStatus.HIT
                hit_date := some d
                units_closed := some (pyRound ((t.units : ℚ) * level.units_pct)) } :
              ExitLevel)).status == ExitLevelStatus.HIT) = true := by
        simp [beq_elstatus_def]
      have hlnothit : (l.status == ExitLevelStatus.HIT) = false := by
        simp [beq_elstatus_def, hpend]
      rw [hlv, hsplit, hitPart_append, hitPart_append, hitPart_cons, hitPart_cons,
        if_pos hnewhit, hlnothit]
      simp only [if_false, Bool.false_eq_true, sumClosed_append]
      simp [sumClosed]
      ring
    set u := pyRound ((t.units : ℚ) * level.units_pct) with hu
    set levels₂ := (match hp with
      | some p => updateFirstById levelId (fun l0 => { l0 with price := p }) levels₁
      | none => levels₁) with hl2
    have hsum2 : sumClosed (hitPart levels₂) = sumClosed (hitPart levels₁) := by
      rw [hl2]
      cases hp with
      | none => rfl
      | some p => exact updateFirstById_price_hitPart p levelId levels₁
    set levels₃ := (if level.move_sl_to_breakeven ∧ level.level_type = ExitLevelType.TP then
        breakevenSLs t.entry_price levels₂ else levels₂) with hl3
    have hsum3 : sumClosed (hitPart levels₃) = sumClosed (hitPart levels₂) := by
      rw [hl3]
      by_cases hb : level.move_sl_to_breakeven ∧ level.level_type = ExitLevelType.TP
      · rw [if_pos hb, breakevenSLs_hitPart]
      · rw [if_neg hb]
    by_cases hr : (match t.remaining_units with | none => t.units | some r => r) - u ≤ 0
    · rw [if_pos hr] at h
      split at h
      · cases h
      · rename_i t₂ hsettle
        cases h
        obtain ⟨w1, w2, w3, w4, w5⟩ := settleClose_ok _ _ hsettle
        have hlev' : hitPart (cancel_remaining_levels t₂.exit_levels) =
            hitPart levels₃ := by
          rw [cancel_remaining_hitPart, w3]
        have hsumFinal : sumClosed (hitPart (cancel_remaining_levels t₂.exit_levels)) =
            sumClosed (hitPart t.exit_levels) + u := by
          rw [hlev', hsum3, hsum2, hsum1]
        refine ⟨?_, ?_, hsumFinal, ?_, ?_⟩
        · show t₂.remaining_units = _
          rw [w2]
        · show t₂.units = t.units
          rw [w4]
        · intro _
          refine ⟨w1, cancel_remaining_no_pending _, ?_⟩
          intro hpos
          have hpos' : 0 < sumClosed (hitPart levels₃) := by
            rw [← hlev']; exact hpos
          obtain ⟨v1, v2, v3⟩ := settleClose_settled _ _ hsettle hpos'
          refine ⟨?_, ?_, ?_⟩
          · show t₂.exit_price = _
            rw [v1, hlev']
          · show t₂.exit_date = _
            rw [v2, hlev']
          · show t₂.exit_type = _
            rw [v3, hlev']
        · intro hgt
          omega
    · rw [if_neg hr] at h
      cases h
      refine ⟨rfl, rfl, ?_, ?_, ?_⟩
      · show sumClosed (hitPart levels₃) = _
        rw [hsum3, hsum2, hsum1]
      · intro hle
        omega
      · intro _
        rfl

theorem revert_level_hit_ok (t : Trade) (levelId : ℕ) (pre : List ExitLevel)
    (level : ExitLevel) (post : List ExitLevel)
    (hsplit : t.exit_levels = pre ++ level :: post)
    (hpre : ∀ x ∈ pre, (x.id == levelId) = false)
    (hid : level.id = levelId)
    (hhit : level.status = ExitLevelStatus.HIT)
    (hopen : t.status = TradeStatus.OPEN) :
    revert_level_hit t levelId = .ok
      { t with
          remaining_units := some (t.remaining_units.getD 0 + level.units_closed.getD 0)
          exit_levels := pre ++
            ({ level with
                 status := ExitLevelStatus.PENDING
                 hit_date := none
                 units_closed := none } : ExitLevel) :: post } := by
  have hf : t.exit_levels.find? (fun l => l.id == levelId) = some level := by
    rw [hsplit]
    apply List.find?_eq_some.mpr
    refine ⟨by simp [hid], pre, post, rfl, ?_⟩
    intro a ha
    simp [hpre a ha]
  unfold revert_level_hit
  rw [hf]
  dsimp only
  rw [if_neg (by simp [hhit]), if_neg (by simp [hopen])]
  rw [hsplit, updateFirstById_append levelId _ pre level post hpre hid]
  cases hru : t.remaining_units with
  | none => simp
  | some r => simp

theorem levelsFromSpecs_status :
    ∀ (specs : List LevelSpec) (nid : ℕ) (a b : ℤ),
      ∀ l ∈ levelsFromSpecs specs nid a b,
        l.status = ExitLevelStatus.PENDING ∧ l.hit_date = none ∧ l.units_closed = none := by
  intro specs
  induction specs with
  | nil => intro nid a b l hl; cases hl
  | cons sp rest ih =>
    intro nid a b l hl
    cases hty : sp.level_type with
    | TP =>
      rw [levelsFromSpecs, hty] at hl
      rcases List.mem_cons.mp hl with h1 | h1
      · rw [h1]; exact ⟨rfl, rfl, rfl⟩
      · exact ih (nid + 1) (a + 1) b l h1
    | SL =>
      rw [levelsFromSpecs, hty] at hl
      rcases List.mem_cons.mp hl with h1 | h1
      · rw [h1]; exact ⟨rfl, rfl, rfl⟩
      · exact ih (nid + 1) a (b + 1) l h1

theorem levelsFromSpecs_indices (ty : ExitLevelType) :
    ∀ (specs : List LevelSpec) (nid : ℕ) (a b : ℤ),
      (typePart ty (levelsFromSpecs specs nid a b)).map (fun l => l.order_index) =
        seqFrom ((match ty with | ExitLevelType.TP => a | ExitLevelType.SL => b) + 1)
          ((specs.filter (fun s => s.level_type == ty)).length) := by
  intro specs
  induction specs with
  | nil =>
    intro nid a b
    cases ty <;> rfl
  | cons sp rest ih =>
    intro nid a b
    cases hty : sp.level_type with
    | TP =>
      rw [levelsFromSpecs, hty]
      cases ty with
      | TP =>
        have hrec := ih (nid + 1) (a + 1) b
        simp only [typePart, beq_eltype_def] at hrec ⊢
        simp [List.filter_cons, hty, seqFrom, hrec]
      | SL =>
        have hrec := ih (nid + 1) (a + 1) b
        simp only [typePart, beq_eltype_def] at hrec ⊢
        simp [List.filter_cons, hty, hrec]
    | SL =>
      rw [levelsFromSpecs, hty]
      cases ty with
      | SL =>
        have hrec := ih (nid + 1) a (b + 1)
        simp only [typePart, beq_eltype_def] at hrec ⊢
        simp [List.filter_cons, hty, seqFrom, hrec]
      | TP =>
        have hrec := ih (nid + 1) a (b + 1)
        simp only [typePart, beq_eltype_def] at hrec ⊢
        simp [List.filter_cons, hty, hrec]

theorem detectC1 :
    detect_layered_hits tradeC1 barsC1 =
      [{ level := mkPending 1 ExitLevelType.TP 110 (5/10) 1, hit_date := 11,
         units_to_close := 50 }] := by
  simp +decide [detect_layered_hits, tradeC1, barsC1, stableSortBy, stableInsert, mdLE,
    levelSortLE, scanDays, scanLevelsForDay, check_layered_level_hit, is_long_trade,
    Trade.stop_loss, unitsToCloseDetect, pyOrInt, mkPending,
    List.filter, List.contains, List.elem, List.foldl,
    beq_eltype_def, beq_elstatus_def, beq_eq_decide]
  norm_num [pyTrunc]

theorem sumHits_nonneg (hs : List LayeredLevelHit)
    (h : ∀ x ∈ hs, 0 ≤ x.units_to_close) : 0 ≤ sumHits hs := by
  induction hs with
  | nil => simp [sumHits]
  | cons a rest ih =>
    have h1 := h a (List.mem_cons_self a rest)
    have h2 := ih (fun x hx => h x (List.mem_cons_of_mem a hx))
    rw [sumHits_cons]
    omega

theorem detect_layered_not_open (t : Trade) (bars : List MarketData)
    (h : ¬ t.status = TradeStatus.OPEN) : detect_layered_hits t bars = [] := by
  unfold detect_layered_hits
  rw [if_neg h]

theorem update_trade_decomp (t : Trade) (today nextId : ℕ) (u : TradeUpdates) :
    update_trade t today nextId u =
      match validateStatusChange t today u with
      | .error e => .error e
      | .ok u₁ => applyNonStatusUpdates t nextId u₁ := rfl

theorem update_trade_ok_split (t : Trade) (today nextId : ℕ) (u : TradeUpdates)
    (t' : Trade) (h : update_trade t today nextId u = .ok t') :
    ∃ u₁, validateStatusChange t today u = .ok u₁ ∧
      applyNonStatusUpdates t nextId u₁ = .ok t' := by
  rw [update_trade_decomp] at h
  cases hv : validateStatusChange t today u with
  | error e => rw [hv] at h; cases h
  | ok u₁ => rw [hv] at h; exact ⟨u₁, rfl, h⟩

theorem validate_ok_fields (t : Trade) (today : ℕ) (u u₁ : TradeUpdates)
    (h : validateStatusChange t today u = .ok u₁) :
    u₁.status = u.status ∧ u₁.exit_levels = u.exit_levels := by
  unfold validateStatusChange at h
  cases hus : u.status with
  | none =>
    rw [hus] at h
    cases h
    exact ⟨hus, rfl⟩
  | some ns =>
    rw [hus] at h
    dsimp only at h
    split at h
    · cases h; exact ⟨rfl, rfl⟩
    · split at h
      · split at h
        · cases h
        · split at h
          · cases h
          · split at h
            · cases h; exact ⟨rfl, rfl⟩
            · cases h; exact ⟨hus, rfl⟩
      · split at h
        · cases h
        · split at h
          · cases h
          · cases h; exact ⟨hus, rfl⟩

theorem applyNonStatusUpdates_ok (t : Trade) (nextId : ℕ) (u₁ : TradeUpdates)
    (t' : Trade) (h : applyNonStatusUpdates t nextId u₁ = .ok t') :
    ∃ t₁, t'.status = u₁.status.getD t₁.status ∧
      t'.exit_date =
        (match u₁.exit_date with | some d => some d | Option.none => t₁.exit_date) ∧
      t'.exit_levels = t₁.exit_levels ∧
      t₁.status = t.status ∧ t₁.exit_date = t.exit_date ∧
      (u₁.exit_levels = Option.none → t₁ = t) := by
  unfold applyNonStatusUpdates at h
  dsimp only at h
  cases hul : u₁.exit_levels with
  | none =>
    rw [hul] at h
    dsimp only at h
    refine ⟨t, ?_⟩
    split at h <;> (cases h; exact ⟨rfl, rfl, rfl, rfl, rfl, fun _ => rfl⟩)
  | some sp =>
    rw [hul] at h
    dsimp only at h
    cases hrep : replace_exit_levels t.exit_levels nextId (some sp) with
    | error e => rw [hrep] at h; cases h
    | ok trip =>
      rw [hrep] at h
      obtain ⟨c, lay, nl⟩ := trip
      dsimp only at h
      refine ⟨{ t with
                  exit_levels := nl
                  is_layered := lay
                  remaining_units := if lay then some t.units else t.remaining_units }, ?_⟩
      split at h <;>
        (cases h
         exact ⟨rfl, rfl, rfl, rfl, rfl, fun hc => Option.noConfusion hc⟩)

/-! ## The claims -/

/-- C1 counterexample: `tradeC1` is a non-paper (`paper_trade = false`)
layered Open trade, yet a single detection batch mutates it: one batch run
drops `remaining_units` from 100 to 50 and flips the first TP level from
Pending to Hit — the scanner's hits are not surfaced only as advisory
alerts. -/
theorem C1_counterexample :
    tradeC1.paper_trade = false ∧
    tradeC1.remaining_units = some 100 ∧
    tradeC1.exit_levels.map (fun l => l.status) =
      [ExitLevelStatus.PENDING, ExitLevelStatus.PENDING] ∧
    (process_open_trade tradeC1 barsC1).map
      (fun r => (r.trade.remaining_units, r.trade.status,
                 r.trade.exit_levels.map (fun l => l.status))) =
    .ok (some 50, TradeStatus.OPEN,
         [ExitLevelStatus.HIT, ExitLevelStatus.PENDING]) := by
  refine ⟨rfl, rfl, rfl, ?_⟩
  have hlv : tradeC1.exit_levels =
      [mkPending 1 ExitLevelType.TP 110 (5/10) 1,
       mkPending 2 ExitLevelType.TP 120 (5/10) 2] := by rfl
  have hru : tradeC1.remaining_units = some 100 := by rfl
  have hun : tradeC1.units = 100 := by rfl
  have hpt : tradeC1.paper_trade = false := by rfl
  have hil : tradeC1.is_layered = true := by rfl
  have hst : tradeC1.status = TradeStatus.OPEN := by rfl
  simp +decide [process_open_trade, process_layered_hits, detectC1,
    applyLayeredHits, applyLayeredHit, mark_level_hit, updateFirstById,
    mkPending, settleClose, hitLevels, sumClosed, sumWeighted, levelPriceById,
    List.filter, List.find?, List.map, Option.getD, Except.map,
    beq_eltype_def, beq_elstatus_def, beq_eq_decide,
    hlv, hru, hun, hpt, hil, hst]

/-- C1 (amended): for non-layered trades the claim holds — a detection batch
never mutates a non-paper simple Open trade (the result carries the trade
unchanged, auto-closes nothing, and every alert is advisory with
`auto_closed = false`), and a non-paper Plan trade is never auto-opened
(unchanged, `auto_opened = false` on every alert).  Layered trades are the
exception the counterexample exhibits: `process_layered_hits` runs for them
regardless of `paper_trade`. -/
theorem C1_nonpaper_advisory_only :
    (∀ (t : Trade) (bars : List MarketData) (r : OpenProcResult),
        t.paper_trade = false → t.is_layered = false →
        process_open_trade t bars = .ok r →
        r.trade = t ∧ r.autoClosedCount = 0 ∧
        ∀ a ∈ r.sltp_alerts, a.auto_closed = false) ∧
    (∀ (t : Trade) (bars : List MarketData),
        t.paper_trade = false →
        (process_plan_trade t bars).1 = t ∧
        (process_plan_trade t bars).2.2 = 0 ∧
        ∀ a ∈ (process_plan_trade t bars).2.1, a.auto_opened = false) := by
  constructor
  · intro t bars r hpt hil hok
    unfold process_open_trade at hok
    rw [hil] at hok
    simp only [Bool.false_eq_true, if_false] at hok
    cases hdet : detect_sltp_hit t bars with
    | none =>
      rw [hdet] at hok
      cases hok
      exact ⟨rfl, rfl, by intro a ha; cases ha⟩
    | some hit =>
      rw [hdet] at hok
      dsimp only at hok
      by_cases hbt : hit.hit_type = SLTPHitType.BOTH
      · rw [if_pos hbt] at hok
        cases hok
        refine ⟨rfl, rfl, ?_⟩
        intro a ha
        have := List.mem_singleton.mp ha
        rw [this]
      · rw [if_neg hbt, hpt] at hok
        simp only [Bool.false_eq_true, if_false] at hok
        cases hok
        refine ⟨rfl, rfl, ?_⟩
        intro a ha
        have := List.mem_singleton.mp ha
        rw [this]
  · intro t bars hpt
    unfold process_plan_trade
    cases hdet : detect_entry_hit t bars with
    | none => exact ⟨rfl, rfl, by intro a ha; cases ha⟩
    | some hit =>
      rw [hpt]
      simp only [Bool.false_eq_true, if_false]
      refine ⟨by trivial, by trivial, ?_⟩
      intro a ha
      have := List.mem_singleton.mp ha
      rw [this]

/-- Evaluation of C4's fixture: the bar (high 106, low 88) triggers both the
SL (105) and the TP (90) of the short trade, so detection reports BOTH at the
stop-loss price. -/
theorem detectC4 :
    detect_sltp_hit tradeC4 barsC4 =
      some { hit_type := SLTPHitType.BOTH, hit_date := 10, hit_price := 105 } := by
  simp +decide [detect_sltp_hit, tradeC4, barsC4, stableSortBy, stableInsert, mdLE,
    firstSLTPHit, check_sltp_hit_for_day, is_long_trade, Trade.stop_loss,
    Trade.take_profit, mkPending, List.filter, List.foldl,
    beq_eltype_def, beq_eq_decide]

/-- C4: when the first detected hit of a simple (non-layered) Open trade is
BOTH (SL and TP on the same bar), the batch reports exactly one conflict —
one advisory alert with `auto_closed = false`, nothing auto-closed, the trade
returned unchanged — and `auto_close_paper_trade` is the identity on a BOTH
hit, so not even a paper trade is closed. -/
theorem C4_both_is_conflict_never_closes (t : Trade) (bars : List MarketData)
    (hit : SLTPHit) (hil : t.is_layered = false)
    (hdet : detect_sltp_hit t bars = some hit)
    (hboth : hit.hit_type = SLTPHitType.BOTH) :
    process_open_trade t bars = .ok
      { trade := t
        sltp_alerts := [{ hit_type := hit.hit_type, hit_date := hit.hit_date,
                          hit_price := hit.hit_price, paper_trade := t.paper_trade,
                          auto_closed := false }]
        layered_alerts := []
        autoClosedCount := 0
        partClosedCount := 0
        conflictCount := 1 } ∧
    auto_close_paper_trade t hit = t := by
  constructor
  · unfold process_open_trade
    rw [hil]
    simp only [Bool.false_eq_true, if_false]
    rw [hdet]
    dsimp only
    rw [if_pos hboth]
  · unfold auto_close_paper_trade
    rw [if_pos hboth]

/-- C4 witness: the spec's own example (short, entry 100, SL 105, TP 90, bar
high 106 / low 88) on a paper trade: one conflict, no mutation. -/
theorem C4_witness :
    process_open_trade tradeC4 barsC4 = .ok
      { trade := tradeC4
        sltp_alerts := [{ hit_type := SLTPHitType.BOTH, hit_date := 10,
                          hit_price := 105, paper_trade := true,
                          auto_closed := false }]
        layered_alerts := []
        autoClosedCount := 0
        partClosedCount := 0
        conflictCount := 1 } ∧
    auto_close_paper_trade tradeC4
      { hit_type := SLTPHitType.BOTH, hit_date := 10, hit_price := 105 } = tradeC4 :=
  C4_both_is_conflict_never_closes tradeC4 barsC4 _ rfl detectC4 rfl

/-- C10: reverting a Hit level of an Open trade adds the level's recorded
`units_closed` back to `remaining_units` (a missing `remaining_units` counts
as zero), resets the level to Pending with `hit_date` and `units_closed`
cleared, and changes nothing else: the result is exactly the input trade with
those two fields updated — status, prices and all other levels included
unchanged. -/
theorem C10_revert_restores_units (t : Trade) (levelId : ℕ)
    (pre : List ExitLevel) (level : ExitLevel) (post : List ExitLevel)
    (hsplit : t.exit_levels = pre ++ level :: post)
    (hpre : ∀ x ∈ pre, (x.id == levelId) = false)
    (hid : level.id = levelId)
    (hhit : level.status = ExitLevelStatus.HIT)
    (hopen : t.status = TradeStatus.OPEN) :
    revert_level_hit t levelId = .ok
      { t with
          remaining_units := some (t.remaining_units.getD 0 + level.units_closed.getD 0)
          exit_levels := pre ++
            ({ level with
                 status := ExitLevelStatus.PENDING
                 hit_date := none
                 units_closed := none } : ExitLevel) :: post } :=
  revert_level_hit_ok t levelId pre level post hsplit hpre hid hhit hopen

/-- C10 witness: reverting the Hit 50% TP level (5 units closed) of
`tradeC10` restores `remaining_units` from 5 to 10 and resets the level,
leaving the SL level and every other field alone. -/
theorem C10_witness :
    revert_level_hit tradeC10 1 = .ok
      { tradeC10 with
          remaining_units := some 10
          exit_levels := [mkPending 1 ExitLevelType.TP 110 (5/10) 1,
                          mkPending 2 ExitLevelType.SL 95 1 1] } := by
  have h := C10_revert_restores_units tradeC10 1 []
    (mkHit 1 ExitLevelType.TP 110 (5/10) 1 11 5)
    [mkPending 2 ExitLevelType.SL 95 1 1]
    rfl (by intro x hx; cases hx) rfl rfl rfl
  rw [h]
  simp [tradeC10, mkHit, mkPending]

/-- C3 (amended): the automatic detection path closes
`min(remaining, max(1, int(units * pct)))` units — Python `int`, truncation
toward zero, not `round` — while the manual path decrements
`remaining_units` by exactly `round(units * pct)` with neither the 1-unit
minimum nor the cap at `remaining_units`. -/
theorem C3_units_to_close_formulas :
    (∀ (u r : ℤ) (pct : ℚ),
        unitsToCloseDetect u r pct = min r (max 1 (pyTrunc ((u : ℚ) * pct)))) ∧
    (∀ (t : Trade) (levelId d : ℕ) (hp : Option ℚ) (level : ExitLevel) (t' : Trade),
        t.exit_levels.find? (fun l => l.id == levelId) = some level →
        apply_manual_level_hit t levelId d hp = .ok t' →
        t'.remaining_units = some
          ((match t.remaining_units with | Option.none => t.units | some r => r) -
            pyRound ((t.units : ℚ) * level.units_pct))) := by
  refine ⟨unitsToCloseDetect_eq, ?_⟩
  intro t levelId d hp level t' hfind h
  exact (apply_manual_level_hit_ok t levelId d hp level t' hfind h).1

/-- C3 counterexample: a 19% level of 10 units detects 1 unit to close
(`int(1.9) = 1`) where the spec's `round` formula gives 2; and a manual hit
of a 5% level of 10 units closes 0 units (`round(0.5) = 0`, no 1-unit
minimum), leaving `remaining_units` at 10, where the spec's formula closes a
minimum of 1. -/
theorem C3_counterexample :
    (detect_layered_hits tradeC3 barsC3).map (fun h => h.units_to_close) = [1] ∧
    specUnitsForLevel 10 10 (19/100) = 2 ∧
    (apply_manual_level_hit tradeC3b 1 11 Option.none).map
      (fun t => t.remaining_units) = .ok (some 10) ∧
    specUnitsForLevel 10 10 (1/20) = 1 := by
  refine ⟨?_, ?_, ?_, ?_⟩
  · simp +decide [detect_layered_hits, tradeC3, barsC3, stableSortBy, stableInsert,
      mdLE, levelSortLE, scanDays, scanLevelsForDay, check_layered_level_hit,
      is_long_trade, Trade.stop_loss, unitsToCloseDetect, pyOrInt, mkPending,
      List.filter, List.contains, List.elem, List.foldl, List.map,
      beq_eltype_def, beq_elstatus_def, beq_eq_decide]
    norm_num [pyTrunc]
  · norm_num [specUnitsForLevel, pyRound]
  · simp +decide [apply_manual_level_hit, tradeC3b, mark_level_hit, updateFirstById,
      mkPending, breakevenSLs, List.find?, List.filter, Except.map,
      beq_eltype_def, beq_elstatus_def, beq_eq_decide]
    norm_num [pyRound]
  · norm_num [specUnitsForLevel, pyRound]

/-- C7 (amended): `replace_exit_levels` deletes only the Pending levels —
what survives of the old collection is exactly its non-Pending part, so Hit
levels are preserved — creates the new specs via `create_exit_levels`, and
creates nothing for a null or empty list; but the returned "is layered"
boolean is `true` for ANY non-empty spec list, not "iff more than 2 total
levels remain". -/
theorem C7_replace_levels :
    ∀ (levels : List ExitLevel) (nextId : ℕ),
      (∀ (specs : List LevelSpec) (created : List ExitLevel) (flag : Bool)
          (newLevels : List ExitLevel),
          replace_exit_levels levels nextId (some specs) =
            .ok (created, flag, newLevels) →
          (flag = true ↔ specs ≠ []) ∧
          newLevels =
            levels.filter (fun l => !(l.status == ExitLevelStatus.PENDING)) ++ created ∧
          (∀ l ∈ levels, l.status = ExitLevelStatus.HIT → l ∈ newLevels) ∧
          (specs = [] → created = [])) ∧
      replace_exit_levels levels nextId Option.none =
        .ok ([], false, levels.filter (fun l => !(l.status == ExitLevelStatus.PENDING))) := by
  intro levels nextId
  constructor
  · intro specs created flag newLevels h
    unfold replace_exit_levels at h
    cases specs with
    | nil =>
      dsimp only at h
      simp only [Except.ok.injEq, Prod.mk.injEq] at h
      obtain ⟨h1, h2, h3⟩ := h
      subst h1
      subst h2
      subst h3
      refine ⟨by simp, by simp, ?_, fun _ => rfl⟩
      intro l hl hst
      exact List.mem_filter.mpr ⟨hl, by simp [beq_elstatus_def, hst]⟩
    | cons s rest =>
      dsimp only at h
      cases hce : create_exit_levels nextId (s :: rest) with
      | error e => rw [hce] at h; cases h
      | ok createdLv =>
        rw [hce] at h
        dsimp only at h
        simp only [Except.ok.injEq, Prod.mk.injEq] at h
        obtain ⟨h1, h2, h3⟩ := h
        subst h1
        subst h2
        subst h3
        refine ⟨by simp, rfl, ?_, fun hc => absurd hc (by simp)⟩
        intro l hl hst
        exact List.mem_append_left _
          (List.mem_filter.mpr ⟨hl, by simp [beq_elstatus_def, hst]⟩)
  · unfold replace_exit_levels
    rfl

/-- C7 counterexample: replacing a trade's levels with a plain SL+TP pair
creates 2 levels and 2 levels remain, yet the returned flag is `true`; the
spec's "more than 2 total levels" formula gives `false` for 2. -/
theorem C7_counterexample :
    (replace_exit_levels lvlsC7 10 (some specsC7)).map
      (fun x => (x.2.1, x.2.2.length)) = .ok (true, 2) ∧
    specReplaceIsLayered 2 = false := by
  constructor
  · simp +decide [replace_exit_levels, create_exit_levels, pctSum, lvlsC7, specsC7,
      mkPending, levelsFromSpecs, List.filter, Except.map,
      beq_elstatus_def, beq_eltype_def, beq_eq_decide]
  · rfl

/-- C8: `create_exit_levels` fails if and only if some present level type's
percentages do not sum to 1 within ±0.001; every failure is a
validation error carrying that type's actual sum (the figure the message
interpolates as a percentage); on success every created level is Pending and
each type's `order_index` runs sequentially 1, 2, … in input order. -/
theorem C8_create_levels_validation :
    ∀ (nextId : ℕ) (specs : List LevelSpec),
      ((∃ e, create_exit_levels nextId specs = .error e) ↔
        ((specs.filter (fun s => s.level_type == ExitLevelType.TP) ≠ [] ∧
          |pctSum ExitLevelType.TP specs - 1| > 1/1000) ∨
         (specs.filter (fun s => s.level_type == ExitLevelType.SL) ≠ [] ∧
          |pctSum ExitLevelType.SL specs - 1| > 1/1000))) ∧
      (∀ e, create_exit_levels nextId specs = .error e →
        ∃ ty, e = .sumNotOne ty (pctSum ty specs)) ∧
      (∀ levels, create_exit_levels nextId specs = .ok levels →
        (∀ l ∈ levels, l.status = ExitLevelStatus.PENDING) ∧
        (typePart ExitLevelType.TP levels).map (fun l => l.order_index) =
          seqFrom 1 ((specs.filter (fun s => s.level_type == ExitLevelType.TP)).length) ∧
        (typePart ExitLevelType.SL levels).map (fun l => l.order_index) =
          seqFrom 1 ((specs.filter (fun s => s.level_type == ExitLevelType.SL)).length)) := by
  intro nextId specs
  by_cases htp : specs.filter (fun s => s.level_type == ExitLevelType.TP) ≠ [] ∧
      |pctSum ExitLevelType.TP specs - 1| > 1/1000
  · have hc : create_exit_levels nextId specs =
        .error (.sumNotOne ExitLevelType.TP (pctSum ExitLevelType.TP specs)) := by
      unfold create_exit_levels
      dsimp only
      rw [if_pos htp]
    refine ⟨⟨fun _ => Or.inl htp, fun _ => ⟨_, hc⟩⟩, ?_, ?_⟩
    · intro e h
      rw [hc] at h
      simp only [Except.error.injEq] at h
      exact ⟨ExitLevelType.TP, h.symm⟩
    · intro levels h
      rw [hc] at h
      cases h
  · by_cases hsl : specs.filter (fun s => s.level_type == ExitLevelType.SL) ≠ [] ∧
        |pctSum ExitLevelType.SL specs - 1| > 1/1000
    · have hc : create_exit_levels nextId specs =
          .error (.sumNotOne ExitLevelType.SL (pctSum ExitLevelType.SL specs)) := by
        unfold create_exit_levels
        dsimp only
        rw [if_neg htp, if_pos hsl]
      refine ⟨⟨fun _ => Or.inr hsl, fun _ => ⟨_, hc⟩⟩, ?_, ?_⟩
      · intro e h
        rw [hc] at h
        simp only [Except.error.injEq] at h
        exact ⟨ExitLevelType.SL, h.symm⟩
      · intro levels h
        rw [hc] at h
        cases h
    · have hc : create_exit_levels nextId specs =
          .ok (levelsFromSpecs specs nextId 0 0) := by
        unfold create_exit_levels
        dsimp only
        rw [if_neg htp, if_neg hsl]
      refine ⟨⟨?_, ?_⟩, ?_, ?_⟩
      · rintro ⟨e, he⟩
        rw [hc] at he
        cases he
      · intro hor
        rcases hor with hh | hh
        · exact absurd hh htp
        · exact absurd hh hsl
      · intro e h
        rw [hc] at h
        cases h
      · intro levels h
        rw [hc] at h
        cases h
        refine ⟨?_, ?_, ?_⟩
        · intro l hl
          exact (levelsFromSpecs_status specs nextId 0 0 l hl).1
        · have := levelsFromSpecs_indices ExitLevelType.TP specs nextId 0 0
          simpa using this
        · have := levelsFromSpecs_indices ExitLevelType.SL specs nextId 0 0
          simpa using this

/-- C6 (amended): of the Open→Close paths, only the manual level-hit
settlement cancels Pending levels — a manual trade-status close leaves the
level collection untouched (when the request carries no replacement list),
and the layered batch settlement cancels nothing (its Cancelled part is
exactly the input's); the manual level-hit full close does leave no Pending
level behind. -/
theorem C6_cancellation_only_manual :
    (∀ (t : Trade) (today nextId : ℕ) (u : TradeUpdates) (t' : Trade),
        u.exit_levels = Option.none → update_trade t today nextId u = .ok t' →
        t'.exit_levels = t.exit_levels) ∧
    (∀ (t : Trade) (bars : List MarketData) (t' : Trade) (hits : List LayeredLevelHit),
        process_layered_hits t bars = .ok (t', hits) →
        cancPart t'.exit_levels = cancPart t.exit_levels) ∧
    (∀ (t : Trade) (levelId d : ℕ) (hp : Option ℚ) (level : ExitLevel)
        (t' : Trade) (r' : ℤ),
        t.exit_levels.find? (fun l => l.id == levelId) = some level →
        apply_manual_level_hit t levelId d hp = .ok t' →
        t'.remaining_units = some r' → r' ≤ 0 →
        pendingPart t'.exit_levels = []) := by
  refine ⟨?_, ?_, ?_⟩
  · intro t today nextId u t' hul h
    obtain ⟨u₁, hval, happ⟩ := update_trade_ok_split t today nextId u t' h
    obtain ⟨t₁, _, _, a3, _, _, a6⟩ := applyNonStatusUpdates_ok t nextId u₁ t' happ
    have hu1l : u₁.exit_levels = Option.none := by
      rw [(validate_ok_fields t today u u₁ hval).2, hul]
    rw [a3, a6 hu1l]
  · intro t bars t' hits h
    obtain ⟨hdet, hcase⟩ := process_layered_hits_cases t bars t' hits h
    rcases hcase with ⟨_, rfl⟩ | ⟨hne, t₁, happ, hbr⟩
    · rfl
    · obtain ⟨_, _, _, _, r5⟩ := applyLayeredHits_ok hits t t₁ happ
      obtain ⟨_, _, q3, _⟩ := r5 hne
      rcases hbr with ⟨r₁, _, _, hsettle⟩ | ⟨r₁, _, _, rfl⟩ | ⟨_, rfl⟩
      · obtain ⟨_, _, w3, _, _⟩ := settleClose_ok t₁ t' hsettle
        rw [w3, q3]
      · exact q3
      · exact q3
  · intro t levelId d hp level t' r' hfind h hru hle
    obtain ⟨m1, _, _, m4, _⟩ := apply_manual_level_hit_ok t levelId d hp level t' hfind h
    rw [m1] at hru
    have heq : (match t.remaining_units with | Option.none => t.units | some r => r) -
        pyRound ((t.units : ℚ) * level.units_pct) = r' := Option.some.inj hru
    exact (m4 (by rw [heq]; exact hle)).2.1

/-- C6 counterexample: manually closing `tradeC6` through a trade update
(status → Close with exit data) succeeds and closes the trade, yet both of
its Pending exit levels are still Pending afterwards — no `cancelPending`
runs on this path. -/
theorem C6_counterexample :
    tradeC6.exit_levels.map (fun l => l.status) =
      [ExitLevelStatus.PENDING, ExitLevelStatus.PENDING] ∧
    (update_trade tradeC6 25 100 uC6).map
      (fun t' => (t'.status, t'.exit_levels.map (fun l => l.status))) =
    .ok (TradeStatus.CLOSE, [ExitLevelStatus.PENDING, ExitLevelStatus.PENDING]) := by
  refine ⟨rfl, ?_⟩
  simp +decide [update_trade, tradeC6, uC6, applyFieldUpdates, pyOrQ, pyOrT, truthyQ,
    mkPending, Except.map, beq_elstatus_def, beq_eq_decide]

theorem hitPart_subset (ls : List ExitLevel) : ∀ l ∈ hitPart ls, l ∈ ls := by
  intro l hl
  unfold hitPart at hl
  exact List.mem_of_mem_filter hl

/-- C2 (amended): `remaining_units` is seeded with `units` on creation and
stays defined on every path; the layered batch preserves definedness,
non-negativity and the "zero means Close" rule, and so does revert (given
level bookkeeping with non-negative `units_closed`); a manual level hit keeps
it defined and Closes the trade whenever the new value is ≤ 0, but — as the
counterexample shows — the value itself can go strictly negative, so
non-negativity is not an engine invariant. -/
theorem C2_remaining_units_invariant :
    (∀ (ep : ℚ) (units : ℤ) (dp : ℕ) (sl tp : Option ℚ) (pt : Bool)
        (lv : Option (List LevelSpec)) (nextId : ℕ) (t : Trade),
        create_trade ep units dp sl tp pt lv nextId = .ok t →
        t.remaining_units = some units ∧ t.status = TradeStatus.PLAN) ∧
    (∀ (t : Trade) (bars : List MarketData) (t' : Trade)
        (hits : List LayeredLevelHit) (r : ℤ),
        t.remaining_units = some r → 0 ≤ r →
        (r = 0 → t.status = TradeStatus.CLOSE) →
        process_layered_hits t bars = .ok (t', hits) →
        ∃ r', t'.remaining_units = some r' ∧ 0 ≤ r' ∧
          (r' = 0 → t'.status = TradeStatus.CLOSE)) ∧
    (∀ (t : Trade) (levelId d : ℕ) (hp : Option ℚ) (t' : Trade),
        apply_manual_level_hit t levelId d hp = .ok t' →
        ∃ r', t'.remaining_units = some r' ∧
          (r' ≤ 0 → t'.status = TradeStatus.CLOSE)) ∧
    (∀ (t : Trade) (levelId : ℕ) (t' : Trade) (r : ℤ),
        t.remaining_units = some r → 0 ≤ r →
        (r = 0 → t.status = TradeStatus.CLOSE) →
        (∀ l ∈ t.exit_levels, 0 ≤ l.units_closed.getD 0) →
        revert_level_hit t levelId = .ok t' →
        ∃ r', t'.remaining_units = some r' ∧ 0 ≤ r' ∧
          (r' = 0 → t'.status = TradeStatus.CLOSE)) := by
  refine ⟨?_, ?_, ?_, ?_⟩
  · intro ep units dp sl tp pt lv nextId t h
    unfold create_trade at h
    cases lv with
    | none =>
      dsimp only at h
      cases sl with
      | none => cases h
      | some slv =>
        cases tp with
        | none => cases h
        | some tpv =>
          dsimp only at h
          split at h
          · cases h
          · cases h
            exact ⟨rfl, rfl⟩
    | some sp =>
      cases sp with
      | nil =>
        dsimp only at h
        cases sl with
        | none => cases h
        | some slv =>
          cases tp with
          | none => cases h
          | some tpv =>
            dsimp only at h
            split at h
            · cases h
            · cases h
              exact ⟨rfl, rfl⟩
      | cons s rest =>
        dsimp only at h
        split at h
        · cases h
        · cases h
          exact ⟨rfl, rfl⟩
  · intro t bars t' hits r hr h0 hz hok
    obtain ⟨hdet, hcase⟩ := process_layered_hits_cases t bars t' hits hok
    rcases hcase with ⟨hnil, rfl⟩ | ⟨hne, t₁, happ, hbr⟩
    · exact ⟨r, hr, h0, hz⟩
    · have hrpos : 0 < r := by
        rcases lt_or_eq_of_le h0 with hlt | heq0
        · exact hlt
        · exfalso
          apply hne
          rw [hdet]
          apply detect_layered_not_open
          rw [hz heq0.symm]
          simp
      obtain ⟨hsum_le, hsum_each⟩ := detect_layered_hits_bounds t bars r hr hrpos
      have hle : sumHits hits ≤ r := by rw [hdet]; exact hsum_le
      have hge : 0 ≤ sumHits hits := by
        rw [hdet]
        exact sumHits_nonneg _ hsum_each
      obtain ⟨_, _, _, _, r5⟩ := applyLayeredHits_ok hits t t₁ happ
      obtain ⟨q1, _, _, _⟩ := r5 hne
      rw [hr] at q1
      dsimp only at q1
      rcases hbr with ⟨r₁, hr₁, hle₁, hsettle⟩ | ⟨r₁, hr₁, hpos₁, rfl⟩ | ⟨hnone, rfl⟩
      · obtain ⟨w1, w2, _, _, _⟩ := settleClose_ok t₁ t' hsettle
        refine ⟨r - sumHits hits, ?_, by omega, fun _ => w1⟩
        rw [w2, q1]
      · exact ⟨r₁, hr₁, le_of_lt hpos₁, fun h0' => absurd h0' (by omega)⟩
      · rw [q1] at hnone
        cases hnone
  · intro t levelId d hp t' h
    cases hfind : t.exit_levels.find? (fun l => l.id == levelId) with
    | none =>
      unfold apply_manual_level_hit at h
      rw [hfind] at h
      cases h
    | some level =>
      obtain ⟨m1, _, _, m4, _⟩ := apply_manual_level_hit_ok t levelId d hp level t' hfind h
      exact ⟨_, m1, fun hle => (m4 hle).1⟩
  · intro t levelId t' r hr h0 hz hlv h
    cases hfind : t.exit_levels.find? (fun l => l.id == levelId) with
    | none =>
      unfold revert_level_hit at h
      rw [hfind] at h
      cases h
    | some level =>
      unfold revert_level_hit at h
      rw [hfind] at h
      dsimp only at h
      by_cases hhit : level.status ≠ ExitLevelStatus.HIT
      · rw [if_pos hhit] at h
        cases h
      · rw [if_neg hhit] at h
        by_cases hopen : t.status ≠ TradeStatus.OPEN
        · rw [if_pos hopen] at h
          cases h
        · rw [if_neg hopen] at h
          rw [hr] at h
          dsimp only at h
          cases h
          have hres : 0 ≤ level.units_closed.getD 0 :=
            hlv level (List.mem_of_find?_eq_some hfind)
          refine ⟨r + level.units_closed.getD 0, rfl, by omega, ?_⟩
          intro hz'
          exfalso
          have hcl := hz (by omega)
          have hop : t.status = TradeStatus.OPEN := not_not.mp hopen
          rw [hcl] at hop
          exact TradeStatus.noConfusion hop

/-- C2 counterexample: `tradeC2` has 3 units and two 50% TP levels; each
manual hit closes `round(3 * 0.5) = 2` units with no cap, so after both hits
`remaining_units` is -1 — defined, and the trade Closed, but strictly
negative. -/
theorem C2_counterexample :
    tradeC2.units = 3 ∧ tradeC2.remaining_units = some 3 ∧
    ((apply_manual_level_hit tradeC2 1 11 Option.none).bind
      (fun t₁ => apply_manual_level_hit t₁ 2 12 Option.none)).map
      (fun t => (t.remaining_units, t.status)) =
    .ok (some (-1), TradeStatus.CLOSE) := by
  refine ⟨rfl, rfl, ?_⟩
  have e1 : pyRound ((3 : ℚ) * (5/10)) = 2 := by norm_num [pyRound]
  simp +decide [apply_manual_level_hit, tradeC2, mark_level_hit, updateFirstById,
    settleClose, hitLevels, cancel_remaining_levels, sumClosed, sumWeighted,
    breakevenSLs, mkPending, List.filter, List.find?, List.filterMap,
    Except.map, Except.bind, Option.getD,
    beq_eltype_def, beq_elstatus_def, beq_eq_decide, e1]

/-- Evaluation of C5's fixture detection: with 50 units left, the bar
(high 135) hits TP2 (30%@120, 30 units) then TP3 (20%@130, 20 units). -/
theorem detectC5 : detect_layered_hits tradeC5 barsC5 = hitsC5 := by
  simp +decide [detect_layered_hits, tradeC5, barsC5, hitsC5, stableSortBy,
    stableInsert, mdLE, levelSortLE, scanDays, scanLevelsForDay,
    check_layered_level_hit, is_long_trade, Trade.stop_loss, unitsToCloseDetect,
    pyOrInt, mkPending, mkHit, List.filter, List.contains, List.elem, List.foldl,
    beq_eltype_def, beq_elstatus_def, beq_eq_decide]
  norm_num [pyTrunc]

/-- Evaluation of C5's fixture processing: the two hits close 30 + 20 units,
`remaining_units` reaches 0 and the trade settles at the weighted price
(110·50 + 120·30 + 130·20)/100 = 117, exit date 12, exit type TP. -/
theorem processC5 :
    process_layered_hits tradeC5 barsC5 = .ok (tradeC5done, hitsC5) := by
  unfold process_layered_hits
  rw [detectC5]
  simp +decide [hitsC5, applyLayeredHits, applyLayeredHit, mark_level_hit,
    updateFirstById, settleClose, hitLevels, sumClosed, sumWeighted, breakevenSLs,
    tradeC5, tradeC5done, mkPending, mkHit,
    List.filter, List.find?, List.filterMap, Option.getD,
    beq_eltype_def, beq_elstatus_def, beq_eq_decide]
  norm_num

/-- C5: whenever hit application drives `remaining_units` to ≤ 0 — from the
layered batch on a trade with a positive defined remainder, or from a manual
level hit — the trade transitions to Close with `exit_price` the
`units_closed`-weighted average price over Hit levels, `exit_date` the
maximum `hit_date` among Hit levels, and `exit_type` TP iff total TP
`units_closed` ≥ total SL `units_closed` (tie toward TP). -/
theorem C5_settlement :
    (∀ (t : Trade) (bars : List MarketData) (t' : Trade)
        (hits : List LayeredLevelHit) (r r' : ℤ),
        t.remaining_units = some r → 0 < r →
        (∀ l ∈ t.exit_levels, 0 ≤ l.units_closed.getD 0) →
        process_layered_hits t bars = .ok (t', hits) →
        t'.remaining_units = some r' → r' ≤ 0 →
        t'.status = TradeStatus.CLOSE ∧
        t'.exit_price = some (sumWeighted (hitPart t'.exit_levels) /
          ((sumClosed (hitPart t'.exit_levels) : ℤ) : ℚ)) ∧
        t'.exit_date =
          ((hitPart t'.exit_levels).filterMap (fun l => l.hit_date)).max? ∧
        t'.exit_type = some (if sumClosed ((hitPart t'.exit_levels).filter
              (fun l => l.level_type == ExitLevelType.SL)) ≤
            sumClosed ((hitPart t'.exit_levels).filter
              (fun l => l.level_type == ExitLevelType.TP))
          then ExitType.TP else ExitType.SL)) ∧
    (∀ (t : Trade) (levelId d : ℕ) (hp : Option ℚ) (level : ExitLevel) (t' : Trade),
        t.exit_levels.find? (fun l => l.id == levelId) = some level →
        (∀ l ∈ t.exit_levels, 0 ≤ l.units_closed.getD 0) →
        0 < (match t.remaining_units with | Option.none => t.units | some r => r) →
        (match t.remaining_units with | Option.none => t.units | some r => r) -
            pyRound ((t.units : ℚ) * level.units_pct) ≤ 0 →
        apply_manual_level_hit t levelId d hp = .ok t' →
        t'.status = TradeStatus.CLOSE ∧
        t'.exit_price = some (sumWeighted (hitPart t'.exit_levels) /
          ((sumClosed (hitPart t'.exit_levels) : ℤ) : ℚ)) ∧
        t'.exit_date =
          ((hitPart t'.exit_levels).filterMap (fun l => l.hit_date)).max? ∧
        t'.exit_type = some (if sumClosed ((hitPart t'.exit_levels).filter
              (fun l => l.level_type == ExitLevelType.SL)) ≤
            sumClosed ((hitPart t'.exit_levels).filter
              (fun l => l.level_type == ExitLevelType.TP))
          then ExitType.TP else ExitType.SL)) := by
  constructor
  · intro t bars t' hits r r' hr hrpos hlv hok hru' hle
    obtain ⟨hdet, hcase⟩ := process_layered_hits_cases t bars t' hits hok
    rcases hcase with ⟨hnil, rfl⟩ | ⟨hne, t₁, happ, hbr⟩
    · exfalso
      rw [hr] at hru'
      have := Option.some.inj hru'
      omega
    · obtain ⟨_, _, _, _, r5⟩ := applyLayeredHits_ok hits t t₁ happ
      obtain ⟨q1, q2, _, _⟩ := r5 hne
      rw [hr] at q1
      dsimp only at q1
      rcases hbr with ⟨r₁, hr₁, hle₁, hsettle⟩ | ⟨r₁, hr₁, hpos₁, rfl⟩ | ⟨hnone, rfl⟩
      · obtain ⟨w1, w2, w3, _, _⟩ := settleClose_ok t₁ t' hsettle
        have hSig : sumHits hits = r - r₁ := by
          rw [q1] at hr₁
          have := Option.some.inj hr₁
          omega
        have hold0 : 0 ≤ sumClosed (hitPart t.exit_levels) :=
          sumClosed_nonneg _ (fun l hl => hlv l (hitPart_subset _ l hl))
        have hpos : 0 < sumClosed (hitPart t₁.exit_levels) := by
          rw [q2, hSig]
          omega
        obtain ⟨v1, v2, v3⟩ := settleClose_settled t₁ t' hsettle hpos
        refine ⟨w1, ?_, ?_, ?_⟩ <;> rw [w3]
        · exact v1
        · exact v2
        · exact v3
      · exfalso
        rw [hr₁] at hru'
        have := Option.some.inj hru'
        omega
      · rw [hnone] at hru'
        cases hru'
  · intro t levelId d hp level t' hfind hlv hb hle h
    obtain ⟨_, _, m3, m4, _⟩ := apply_manual_level_hit_ok t levelId d hp level t' hfind h
    obtain ⟨s1, s2, s3⟩ := m4 hle
    have hold0 : 0 ≤ sumClosed (hitPart t.exit_levels) :=
      sumClosed_nonneg _ (fun l hl => hlv l (hitPart_subset _ l hl))
    have hpos : 0 < sumClosed (hitPart t'.exit_levels) := by
      rw [m3]
      omega
    obtain ⟨v1, v2, v3⟩ := s3 hpos
    exact ⟨s1, v1, v2, v3⟩

/-- C5 witness: the spec's worked example — TP1 (50%@110) already hit, the
bar high 135 hits TP2 and TP3, `remaining_units` goes 50→20→0, and the trade
Closes with `exit_type` TP and weighted `exit_price` 117. -/
theorem C5_witness :
    tradeC5done.status = TradeStatus.CLOSE ∧
    tradeC5done.exit_price = some (sumWeighted (hitPart tradeC5done.exit_levels) /
      ((sumClosed (hitPart tradeC5done.exit_levels) : ℤ) : ℚ)) ∧
    tradeC5done.exit_date =
      ((hitPart tradeC5done.exit_levels).filterMap (fun l => l.hit_date)).max? ∧
    tradeC5done.exit_type = some (if sumClosed ((hitPart tradeC5done.exit_levels).filter
          (fun l => l.level_type == ExitLevelType.SL)) ≤
        sumClosed ((hitPart tradeC5done.exit_levels).filter
          (fun l => l.level_type == ExitLevelType.TP))
      then ExitType.TP else ExitType.SL) :=
  C5_settlement.1 tradeC5 barsC5 tradeC5done hitsC5 50 0 rfl (by decide)
    (by decide) processC5 rfl (by decide)

/-- C9: `update_trade` rejects every status change out of Close
(`cannotChangeClosed`) and the direct Plan→Close transition
(`cannotCloseFromPlan`); an Open→Close request fails naming the missing
field when `exit_price` (request value `or` trade's, Python truthiness) is
missing or `exit_type` is, and on success the trade is Closed with
`exit_date` defaulted to today when absent from both request and trade. -/
theorem C9_status_transition_rules :
    ∀ (t : Trade) (today nextId : ℕ) (u : TradeUpdates),
      (t.status = TradeStatus.CLOSE → ∀ ns, u.status = some ns →
          update_trade t today nextId u = .error .cannotChangeClosed) ∧
      (t.status = TradeStatus.PLAN → u.status = some TradeStatus.CLOSE →
          update_trade t today nextId u = .error .cannotCloseFromPlan) ∧
      (t.status = TradeStatus.OPEN → u.status = some TradeStatus.CLOSE →
          (truthyQ (pyOrQ u.exit_price t.exit_price) = false →
              update_trade t today nextId u = .error .exitPriceRequired) ∧
          (truthyQ (pyOrQ u.exit_price t.exit_price) = true →
              pyOrT u.exit_type t.exit_type = Option.none →
              update_trade t today nextId u = .error .exitTypeRequired) ∧
          (∀ t', update_trade t today nextId u = .ok t' →
              truthyQ (pyOrQ u.exit_price t.exit_price) = true ∧
              (pyOrT u.exit_type t.exit_type).isSome = true ∧
              t'.status = TradeStatus.CLOSE ∧
              (u.exit_date = Option.none → t.exit_date = Option.none →
                  t'.exit_date = some today))) := by
  intro t today nextId u
  refine ⟨?_, ?_, ?_⟩
  · intro hcl ns hns
    rw [update_trade_decomp]
    have hv : validateStatusChange t today u = .error .cannotChangeClosed := by
      unfold validateStatusChange
      rw [hns]
      dsimp only
      rw [if_neg (by simp [hcl]), if_neg (by simp [hcl]), if_neg (by simp [hcl]),
        if_pos hcl]
    rw [hv]
  · intro hpl hns
    rw [update_trade_decomp]
    have hv : validateStatusChange t today u = .error .cannotCloseFromPlan := by
      unfold validateStatusChange
      rw [hns]
      dsimp only
      rw [if_neg (by simp), if_neg (by simp [hpl]), if_pos ⟨hpl, rfl⟩]
    rw [hv]
  · intro hopen hns
    have hvshape : validateStatusChange t today u =
        (if ¬ truthyQ (pyOrQ u.exit_price t.exit_price) = true then
           .error .exitPriceRequired
         else if pyOrT u.exit_type t.exit_type = Option.none then
           .error .exitTypeRequired
         else if pyOrT u.exit_date t.exit_date = Option.none then
           .ok { u with exit_date := some today }
         else .ok u) := by
      unfold validateStatusChange
      rw [hns]
      dsimp only
      rw [if_neg (by simp), if_pos ⟨hopen, rfl⟩]
    refine ⟨?_, ?_, ?_⟩
    · intro hfalse
      rw [update_trade_decomp, hvshape, if_pos (by simp [hfalse])]
    · intro htrue hetn
      rw [update_trade_decomp, hvshape, if_neg (by simp [htrue]), if_pos hetn]
    · intro t' h
      rw [update_trade_decomp, hvshape] at h
      by_cases htr : truthyQ (pyOrQ u.exit_price t.exit_price) = true
      · rw [if_neg (not_not_intro htr)] at h
        by_cases het : pyOrT u.exit_type t.exit_type = Option.none
        · rw [if_pos het] at h
          dsimp only at h
          cases h
        · rw [if_neg het] at h
          have hsome : (pyOrT u.exit_type t.exit_type).isSome = true :=
            Option.isSome_iff_ne_none.mpr het
          by_cases hed : pyOrT u.exit_date t.exit_date = Option.none
          · rw [if_pos hed] at h
            dsimp only at h
            obtain ⟨t₁, a1, a2, _, _, _, _⟩ := applyNonStatusUpdates_ok t nextId _ t' h
            refine ⟨htr, hsome, ?_, ?_⟩
            · rw [a1]
              simp [hns]
            · intro _ _
              rw [a2]
          · rw [if_neg hed] at h
            dsimp only at h
            obtain ⟨t₁, a1, a2, _, _, _, _⟩ := applyNonStatusUpdates_ok t nextId u t' h
            refine ⟨htr, hsome, ?_, ?_⟩
            · rw [a1, hns]
              rfl
            · intro hud htd
              exact absurd (by simp [pyOrT, hud, htd]) hed
      · rw [if_pos htr] at h
        dsimp only at h
        cases h

/-- C9 witness: a Closed trade rejects a status change with the
"cannot change status of a closed trade" error. -/
theorem C9_witness :
    update_trade { tradeC6 with status := TradeStatus.CLOSE } 25 100 uC6 =
      .error .cannotChangeClosed :=
  (C9_status_transition_rules { tradeC6 with status := TradeStatus.CLOSE } 25 100 uC6).1
    rfl TradeStatus.CLOSE rfl

end Asistrader
